/-
Verification of the AgenticPurchase orchestration engine.

This file gives a shallow embedding, in Lean 4, of the pure core of the
purchase-saga engine:

* the rule-based trust scoring of `backend/apps/agent4_trust/main.py`
  (`_compute_risk`, `_raise_risk`, the vendor profile table, `assess`),
* the S4 trust/compensation node of `backend/agentic_graph/nodes.py`
  (replica-term scan, cross-check raises, the bounded compensation loop),
* the offers-list reorder of `backend/apps/coordinator/saga.py`,
* the strict/fuzzy merge-and-dedup of `backend/agentic_graph/nodes.py`,
* the sourcing scorer and budget fallback of
  `Agentic_AI/apps/agent3_sourcing/main.py`,
* the token budgeter of `Agentic_AI/apps/coordinator/metrics_tokens.py`,
* the checkout admission pipeline of
  `Agentic_AI/apps/agent5_checkout/main.py`.

Modelling conventions: Python floats become `ℚ` (every constant appearing in
the code is exactly representable); Python strings become `String` (the code
only handles ASCII data, for which Python `str.lower`, `in`, and `<` agree
with `String.map Char.toLower`, list-infix containment, and `String` order on
code points); Python's stable `sorted`/`list.sort` becomes
`List.insertionSort`, which is stable for a total preorder; mutable dicts
become association lists updated in insertion order; raised `ValueError`s
become an explicit error sum; wall-clock reads are not modelled (equivalently,
the elapsed time is taken to be below every latency cap, which is the only
timing-independent behaviour); external providers (the price-reference store,
the SHA-256 hash, the current UTC date, the LLM adjusters, which live outside
this repository's pure core) are passed in as explicit parameters, mirroring
the capability-provider injection of spec section 6.
-/
import Mathlib

namespace AgenticPurchase

/-! ### Python string primitives

All of these are written as structural recursions over the character data so
that concrete instances reduce inside the kernel. -/

/-- Python `s.lower()` (ASCII data). -/
def pyLower (s : String) : String := String.mk (s.toList.map Char.toLower)

/-- `ns` is a contiguous prefix of `hs`. -/
def charsPre : List Char → List Char → Bool
  | [], _ => true
  | _ :: _, [] => false
  | a :: as, b :: bs => a == b && charsPre as bs

/-- `ns` occurs contiguously inside `hs`. -/
def charsContain (ns : List Char) : List Char → Bool
  | [] => ns.isEmpty
  | b :: bs => charsPre ns (b :: bs) || charsContain ns bs

/-- Python `needle in haystack` (contiguous substring on code points). -/
def pyIn (needle haystack : String) : Bool :=
  charsContain needle.toList haystack.toList

/-- Python `s.rstrip("/")`: drop every trailing `'/'`. -/
def pyRstripSlash (s : String) : String :=
  String.mk ((s.toList.reverse.dropWhile (· = '/')).reverse)

/-- Python `" ".join(parts)`. -/
def joinSpace (parts : List String) : String :=
  String.intercalate " " parts

/-- Python `" ".join(filter(None, parts))`: join with spaces after dropping
falsy entries (`None` and `""`). -/
def joinNonEmpty (parts : List (Option String)) : String :=
  String.intercalate " " ((parts.filterMap id).filter (· ≠ ""))

/-- Lexicographic comparison of character lists by code point. -/
def charsLt : List Char → List Char → Bool
  | [], [] => false
  | [], _ :: _ => true
  | _ :: _, [] => false
  | a :: as, b :: bs => a.toNat < b.toNat || (a == b && charsLt as bs)

/-- Python string `<`: lexicographic on code points. -/
def pyStrLt (a b : String) : Bool := charsLt a.toList b.toList

/-- Index of the first occurrence of `x`, if any (Python `list.index` that
reports the miss instead of raising). -/
def idxOf? (x : String) : List String → Option ℕ
  | [] => none
  | h :: t => if h = x then some 0 else (idxOf? x t).map (· + 1)

/-- Truthiness of an optional string (`if s:` in Python). -/
def truthyStr : Option String → Bool
  | none => false
  | some s => s ≠ ""

/-- Truthiness of an optional number (`if x:` in Python; `0` is falsy). -/
def truthyQ : Option ℚ → Bool
  | none => false
  | some q => q ≠ 0

/-! ### Risk bands

`TrustAssessment.risk` is a plain string in the source
(`backend/libs/schemas/models.py`), one of `"low" | "medium" | "high"`. -/

/-- The band order used by `_raise_risk` in both
`backend/apps/agent4_trust/main.py` and `backend/agentic_graph/nodes.py`. -/
def riskOrder : List String := ["low", "medium", "high"]

/-- `_raise_risk` (`backend/apps/agent4_trust/main.py`, lines 86-93): look up
both bands in `riskOrder` and return the larger index; on a `ValueError`
(either string missing from the list) return `target`. -/
def raise_risk (current target : String) : String :=
  match idxOf? current riskOrder, idxOf? target riskOrder with
  | some i, some j => riskOrder.getD (max i j) target
  | _, _ => target

/-- Index of a band in the enum order `low < medium < high` (spec section 4.6
and the glossary); used to state the spec-mandated comparison. -/
def riskIdx (r : String) : ℕ := (idxOf? r riskOrder).getD 3

/-! ### Vendor profiles and rule-based risk
(`backend/apps/agent4_trust/main.py`) -/

structure VendorProfile where
  tls : Bool
  domain_age_days : ℤ
  has_policy_pages : Bool
  historical_issues : Bool := false
  happy_reviews_pct : ℚ := 7/10
  accepts_returns : Bool := true
  average_refund_time_days : ℤ := 7
  deriving Repr, DecidableEq

/-- `VENDOR_PROFILES`, lines 29-35. -/
def VENDOR_PROFILES : List (String × VendorProfile) :=
  [ ("Mockazon",  { tls := true, domain_age_days := 2400, has_policy_pages := true,
                    happy_reviews_pct := 92/100, accepts_returns := true,
                    average_refund_time_days := 5 }),
    ("Shoply",    { tls := true, domain_age_days := 1100, has_policy_pages := true,
                    happy_reviews_pct := 88/100, accepts_returns := true,
                    average_refund_time_days := 7 }),
    ("SuperMart", { tls := true, domain_age_days := 3200, has_policy_pages := true,
                    happy_reviews_pct := 85/100, accepts_returns := true,
                    average_refund_time_days := 6 }),
    ("MegaBuy",   { tls := true, domain_age_days := 650, has_policy_pages := true,
                    happy_reviews_pct := 81/100, accepts_returns := true,
                    average_refund_time_days := 8 }),
    ("GigaDeal",  { tls := true, domain_age_days := 120, has_policy_pages := false,
                    historical_issues := true, happy_reviews_pct := 64/100,
                    accepts_returns := false, average_refund_time_days := 14 }) ]

/-- The pessimistic default profile handed to unknown vendors
(`assess`, lines 97-108). -/
def defaultProfile : VendorProfile :=
  { tls := false, domain_age_days := 45, has_policy_pages := false,
    historical_issues := true, happy_reviews_pct := 1/2,
    accepts_returns := false, average_refund_time_days := 21 }

/-- Dictionary lookup on an insertion-ordered association list
(Python `dict.get`/`in`). -/
def lookupStr {β : Type} (k : String) : List (String × β) → Option β
  | [] => none
  | (a, v) :: t => if a = k then some v else lookupStr k t

/-- `VENDOR_PROFILES.get(offer.vendor, default)`. -/
def profileFor (vendor : String) : VendorProfile :=
  (lookupStr vendor VENDOR_PROFILES).getD defaultProfile

/-! ### Offers (`backend/libs/schemas/models.py`) -/

structure Offer where
  vendor : String
  title : String
  price_usd : ℚ
  shipping_days : ℤ
  eta_days : ℤ
  url : String
  score : ℚ := 0
  category : Option String := none
  keywords : Option (List String) := none
  description : Option String := none
  /-- the `attributes` dict, of which the saga reads only `domain_name` -/
  attributes_domain_name : Option String := none
  deriving Repr, DecidableEq

/-- `_suspicious_vendor_name`, lines 40-42. -/
def suspicious_vendor_name (vendor : String) : Bool :=
  ["scam", "fraud", "unknown", "dealz", "click"].any (fun t => pyIn t (pyLower vendor))

/-- `_suspicious_url`, lines 45-47. -/
def suspicious_url (url : String) : Bool :=
  ["scam", "click", "malware", "unknown"].any (fun t => pyIn t (pyLower url))

/-- The additive score accumulated by `_compute_risk`, lines 50-77,
with its exact `if`/`elif` structure. -/
def compute_risk_score (p : VendorProfile) (o : Offer) : ℚ :=
  let score : ℚ := 0
  let score := if ¬p.tls then score + 2 else score
  let score := if ¬p.has_policy_pages then score + 1 else score
  let score := if p.domain_age_days < 365 then score + 1 else score
  let score := if p.domain_age_days < 90 then score + 1 else score
  let score := if p.historical_issues then score + 2 else score
  let score := if p.happy_reviews_pct < 75/100 then score + 1 else score
  let score := if p.happy_reviews_pct < 6/10 then score + 1 else score
  let score :=
    if ¬p.accepts_returns then score + 2
    else if p.average_refund_time_days > 14 then score + 1
    else if p.average_refund_time_days > 10 then score + 1/2
    else score
  let score :=
    if suspicious_vendor_name o.vendor ∨ suspicious_url o.url then score + 2
    else score
  score

/-- The band map of `_compute_risk`, lines 79-83. -/
def riskBand (score : ℚ) : String :=
  if score ≤ 1 then "low" else if score ≤ 7/2 then "medium" else "high"

/-- `_compute_risk`, lines 50-83. -/
def compute_risk (p : VendorProfile) (o : Offer) : String :=
  riskBand (compute_risk_score p o)

/-- The score of claim C5 read literally off the spec's weight table: *each
listed condition contributes its weight*, so both refund-day rows fire for a
refund window over 14 days, and the vendor-name row and the URL row each
contribute `+2` on their own. Written from the spec's words, to be compared
with `compute_risk_score`, which is written from the source. -/
def specAdditiveScore (p : VendorProfile) (o : Offer) : ℚ :=
  (if ¬p.tls then 2 else 0)
  + (if ¬p.has_policy_pages then 1 else 0)
  + (if p.domain_age_days < 365 then 1 else 0)
  + (if p.domain_age_days < 90 then 1 else 0)
  + (if p.historical_issues then 2 else 0)
  + (if p.happy_reviews_pct < 75/100 then 1 else 0)
  + (if p.happy_reviews_pct < 6/10 then 1 else 0)
  + (if ¬p.accepts_returns then 2 else 0)
  + (if p.accepts_returns ∧ p.average_refund_time_days > 14 then 1 else 0)
  + (if p.accepts_returns ∧ p.average_refund_time_days > 10 then 1/2 else 0)
  + (if suspicious_vendor_name o.vendor then 2 else 0)
  + (if suspicious_url o.url then 2 else 0)

/-- The additive score of claim C5 as amended: the two refund-day weights are
mutually exclusive alternatives inside the returns branch (`+1` for a refund
window over 14 days, otherwise `+1/2` for one over 10 days, and only when
returns are accepted), and the vendor-name and URL triggers contribute a
single `+2` when either fires. -/
def amendedAdditiveScore (p : VendorProfile) (o : Offer) : ℚ :=
  (if ¬p.tls then 2 else 0)
  + (if ¬p.has_policy_pages then 1 else 0)
  + (if p.domain_age_days < 365 then 1 else 0)
  + (if p.domain_age_days < 90 then 1 else 0)
  + (if p.historical_issues then 2 else 0)
  + (if p.happy_reviews_pct < 75/100 then 1 else 0)
  + (if p.happy_reviews_pct < 6/10 then 1 else 0)
  + (if ¬p.accepts_returns then 2
     else if p.average_refund_time_days > 14 then 1
     else if p.average_refund_time_days > 10 then 1/2
     else 0)
  + (if suspicious_vendor_name o.vendor ∨ suspicious_url o.url then 2 else 0)

/-! ### Trust assessment (`backend/apps/agent4_trust/main.py`, `assess`) -/

/-- The saga's `TrustAssessment` record (`backend/libs/schemas/models.py`),
restricted to the fields the engine reads or writes.  `dimension_zscores` is
modelled by its list of values, the only thing `assess` inspects. -/
structure TrustAssessment where
  vendor : String
  risk : String
  price_zscore : Option ℚ := none
  weight_zscore : Option ℚ := none
  dimension_zscores : List ℚ := []
  brand_mismatch : Option Bool := none
  domain_mismatch : Option Bool := none
  vision_mismatch : Option Bool := none
  replica_terms : Option (List String) := none
  auth_reasons : Option (List String) := none
  deriving Repr, DecidableEq

/-- What the external price-reference provider (spec section 6, out of the
engine's scope) reports for one offer: `compute_price_z`, `compute_weight_z`
and `compute_dimension_zscores`, each `none`/empty when references are
unavailable or the computation raises. -/
structure PriceRefSignals where
  price_z : Option ℚ := none
  weight_z : Option ℚ := none
  dim_z : List ℚ := []

/-- `assess`, lines 96-153: profile lookup with pessimistic default,
rule-based band, then the anomaly raises.  The optional LLM adjustment
(`llm_adjust_trust`, gated by the `USE_LANGCHAIN_TRUST` flag and an external
provider) is the flag-off deterministic path. -/
def assess (sig : PriceRefSignals) (offer : Offer) : TrustAssessment :=
  let profile := profileFor offer.vendor
  let a : TrustAssessment := { vendor := offer.vendor, risk := compute_risk profile offer }
  let a := match sig.price_z with
    | some z =>
        { a with price_zscore := some z,
                 risk := if z ≤ -2 then raise_risk a.risk "high" else a.risk }
    | none => a
  let a := match sig.weight_z with
    | some z =>
        { a with weight_zscore := some z,
                 risk := if |z| ≥ 3 then raise_risk a.risk "high" else a.risk }
    | none => a
  let a := if sig.dim_z ≠ [] then
      { a with dimension_zscores := sig.dim_z,
               risk := if sig.dim_z.any (fun v => |v| ≥ 3) then raise_risk a.risk "medium"
                       else a.risk }
    else a
  a

/-! ### S4 trust node (`backend/agentic_graph/nodes.py`, `trust_node`) -/

/-- `REPLICA_TERMS`, lines 418-430. -/
def REPLICA_TERMS : List String :=
  ["replica", "knockoff", "fake", "dupe", "inspired", "lookalike",
   "mirror quality", "aaa", "copy", "compatible with", "style"]

/-- Ascending insertion of a string (Python `sorted` on strings). -/
def insertStr (x : String) : List String → List String
  | [] => [x]
  | h :: t => if pyStrLt x h then x :: h :: t else h :: insertStr x t

/-- Python `sorted` on a list of strings. -/
def sortStrs : List String → List String
  | [] => []
  | h :: t => insertStr h (sortStrs t)

/-- `text_blob`, lines 250-255: title, description and joined keywords,
falsy entries dropped, lowercased. -/
def replicaBlob (o : Offer) : String :=
  pyLower (joinNonEmpty [some o.title, o.description, some (joinSpace (o.keywords.getD []))])

/-- `replica_hits`, line 256: the sorted set of replica terms occurring in
the text blob. -/
def replicaHits (o : Offer) : List String :=
  sortStrs ((REPLICA_TERMS.filter (fun t => pyIn t (replicaBlob o))).dedup)

/-- The part of `ProductHypothesis` the trust node reads. -/
structure Hypothesis where
  label : String
  brand : Option String := none
  color : Option String := none
  deriving Repr, DecidableEq

/-- The part of the LangGraph `SagaState` that `trust_node` reads
(`Agentic_AI/agentic_graph/state.py`). -/
structure SagaStateS4 where
  hypothesis : Option Hypothesis := none
  offers : List Offer := []
  best_offer : Option Offer := none
  comp_top_k : Option ℤ := none
  comp_price_window_pct : Option ℚ := none
  deriving Repr

/-- The domain cross-check of `trust_node`, lines 226-227: a non-empty
`domain_name` attribute that does not start with `"amazon"`. -/
def domainMismatchOf (best : Offer) : Bool :=
  let domain_name := pyLower ((best.attributes_domain_name).getD "")
  domain_name ≠ "" && !(charsPre "amazon".toList domain_name.toList)

/-- The brand cross-check of `trust_node`, lines 232-235: the vision brand,
lowercased, is not contained in the lowercased vendor name. -/
def brandMismatchOf (hypothesis : Option Hypothesis) (best : Offer) : Bool :=
  let vision_brand : Option String := match hypothesis with
    | some h => match h.brand with
        | some b => if b ≠ "" then some (pyLower b) else none
        | none => none
    | none => none
  let offer_brand := pyLower best.vendor
  match vision_brand with
  | some vb => offer_brand ≠ "" && !(pyIn vb offer_brand)
  | none => false

/-- The colour cross-check of `trust_node`, lines 240-246: the vision colour
is absent from the lowercased title-plus-description blob. -/
def colorMismatchOf (hypothesis : Option Hypothesis) (best : Offer) : Bool :=
  match hypothesis with
  | some h => match h.color with
      | some c =>
          let color := pyLower c
          let blob := pyLower (joinNonEmpty [some best.title, best.description])
          color ≠ "" && !(pyIn color blob)
      | none => false
  | none => false

/-- The `auth_reasons` list accumulated by `trust_node`, lines 224-262. -/
def enrichAuthReasons (hypothesis : Option Hypothesis) (best : Offer)
    (trust : TrustAssessment) : List String :=
  let auth := trust.auth_reasons.getD []
  let auth := if domainMismatchOf best then
      auth ++ ["Domain is not an Amazon marketplace"] else auth
  let auth := if brandMismatchOf hypothesis best then
      auth ++ ["Vision brand differs from listing"] else auth
  let auth := if colorMismatchOf hypothesis best then
      auth ++ ["Vision color not present in listing"] else auth
  let hits := replicaHits best
  if hits ≠ [] then auth ++ ["Replica cues: " ++ String.intercalate ", " hits] else auth

/-- The enrichment of the best offer's assessment performed by `trust_node`,
lines 224-269: domain/brand/colour cross-checks, replica scan, then the three
risk raises in source order. -/
def enrichTrust (hypothesis : Option Hypothesis) (best : Offer)
    (trust : TrustAssessment) : TrustAssessment :=
  let domain_mismatch := domainMismatchOf best
  let brand_mismatch := brandMismatchOf hypothesis best
  let color_mismatch := colorMismatchOf hypothesis best
  let hits := replicaHits best
  let auth := enrichAuthReasons hypothesis best trust
  let trust := if domain_mismatch then { trust with domain_mismatch := some true } else trust
  let trust := if brand_mismatch then { trust with brand_mismatch := some true } else trust
  let trust := { trust with vision_mismatch := some (brand_mismatch || color_mismatch) }
  let trust := if hits ≠ [] then { trust with replica_terms := some hits } else trust
  let trust := if auth ≠ [] then { trust with auth_reasons := some auth } else trust
  let trust := if (trust.replica_terms.getD []) ≠ [] then
      { trust with risk := raise_risk trust.risk "high" } else trust
  let trust := if domain_mismatch then
      { trust with risk := raise_risk trust.risk "medium" } else trust
  let trust := if trust.vision_mismatch.getD false then
      { trust with risk := raise_risk trust.risk "medium" } else trust
  trust

/-- The bounded compensation loop of `trust_node`, lines 314-357: walk the
offers, skip the current best, stop after `K` evaluated candidates, and
switch to the first candidate whose assessed risk compares below the current
risk under Python string `<` and whose price passes the window check.  The
wall-clock guard (`extra_cap_ms`) is not modelled: the loop is embedded as if
the elapsed time stayed below the cap, its only timing-independent run. -/
def compensate (sig : Offer → PriceRefSignals) (best : Offer)
    (trust : TrustAssessment) (K : ℤ) (window baseline : ℚ) :
    List Offer → ℤ → Offer × TrustAssessment
  | [], _ => (best, trust)
  | c :: rest, attempts =>
    if attempts ≥ K then (best, trust)
    else if c = best then compensate sig best trust K window baseline rest attempts
    else
      let price_ok : Bool :=
        if baseline ≠ 0 ∧ window ≥ 0 then
          decide (100 * ((c.price_usd - baseline) / baseline) ≤ window)
        else true
      let ctrust := assess (sig c) c
      let safer := pyStrLt ctrust.risk trust.risk
      if safer && price_ok then (c, ctrust)
      else compensate sig best trust K window baseline rest (attempts + 1)

/-- What `trust_node` hands back into the saga state, lines 291-359: the
possibly-switched best offer, the authoritative assessment — and no `offers`
key, so the state's offers list flows through unchanged. -/
structure TrustNodeResult where
  best_offer : Offer
  trust : TrustAssessment
  offers : List Offer
  deriving Repr

/-- `trust_node`, lines 195-359, for a state with a best offer: assess,
enrich, then the bounded compensation when the final risk is medium or high
and a second offer exists.  `S4_COMP_TOPK` and `S4_COMP_PRICE_WINDOW_PCT`
keep their env defaults `3` and `10`, overridden per request when the state
carries overrides. -/
def trust_node (sig : Offer → PriceRefSignals) (state : SagaStateS4)
    (best : Offer) : TrustNodeResult :=
  let trust := enrichTrust state.hypothesis best (assess (sig best) best)
  if (trust.risk = "medium" ∨ trust.risk = "high") ∧ state.offers.length > 1 then
    let K := state.comp_top_k.getD 3
    let window := state.comp_price_window_pct.getD 10
    let baseline := best.price_usd
    let (best2, trust2) := compensate sig best trust K window baseline state.offers 0
    { best_offer := best2, trust := trust2, offers := state.offers }
  else
    { best_offer := best, trust := trust, offers := state.offers }

/-- The switch condition claim C1 states, with the spec's enum order
`low < medium < high` in place of the source's string comparison. -/
def specSwitch (candidateRisk currentRisk : String) (price_ok : Bool) : Bool :=
  decide (riskIdx candidateRisk < riskIdx currentRisk) && price_ok

/-! ### The saga's best-offer reorder
(`backend/apps/coordinator/saga.py`, lines 251-253) -/

/-- "Ensure the winning offer is the first entry so downstream consumers can
rely on ordering." -/
def ensure_best_first (offers : List Offer) (best : Offer) : List Offer :=
  if offers ≠ [] ∧ offers.head? ≠ some best then
    best :: offers.filter (fun o => o ≠ best)
  else offers

/-! ### Token budgeter
(`Agentic_AI/apps/coordinator/metrics_tokens.py`, `TokenBudgeter.charge`) -/

/-- One `charge` on the `used[stage]` counter of one `(run, stage)` cell,
line 63: `self.used[state] += min(n_tokens, max(0, cap - self.used[state]))`.
Each cell of the `used` map evolves independently, so the per-stage map is
modelled cell-wise. -/
def charge_used (cap used n : ℤ) : ℤ :=
  used + min n (max 0 (cap - used))

/-! ### S3 merge and dedup (`backend/agentic_graph/nodes.py`, lines 152-166) -/

/-- URL normalisation used as the dedup key: strip trailing slashes, then
lowercase (`(o.url or "").rstrip("/").lower()`). -/
def norm_url (u : String) : String := pyLower (pyRstripSlash u)

/-- One step of the merge: insert an offer into the insertion-ordered dict
`merged`.  An existing entry for the same normalised URL is replaced in place
when the newcomer's score is strictly higher (`(o.score or 0) >
(merged[key].score or 0)`); otherwise a new entry is appended. -/
def addOffer : List (String × Offer) → Offer → List (String × Offer)
  | [], o => [(norm_url o.url, o)]
  | p :: rest, o =>
    if p.1 = norm_url o.url then
      (if p.2.score < o.score then (p.1, o) :: rest else p :: rest)
    else p :: addOffer rest o

/-- `_add_all`: fold a strategy's offers into the dict. -/
def addAll (m : List (String × Offer)) (lst : List Offer) : List (String × Offer) :=
  lst.foldl addOffer m

/-- The comparison key of `sorted(merged.values(), key=lambda x: x.score or
0.0, reverse=True)`: `a` may precede `b` when `b`'s score does not exceed
`a`'s. -/
def scoreDesc (a b : Offer) : Prop := b.score ≤ a.score

instance : DecidableRel scoreDesc := fun a b => inferInstanceAs (Decidable (b.score ≤ a.score))

instance : IsTotal Offer scoreDesc := ⟨fun a b => le_total b.score a.score⟩

instance : IsTrans Offer scoreDesc := ⟨fun _ _ _ h₁ h₂ => le_trans h₂ h₁⟩

/-- The merged, deduplicated, score-sorted offers list of `sourcing_node`:
fold the strict then the fuzzy results into the dict and sort its values by
descending score (Python's sort is stable, as is insertion sort for a total
preorder). -/
def merge_offers (strict fuzzy : List Offer) : List Offer :=
  List.insertionSort scoreDesc ((addAll (addAll [] strict) fuzzy).map Prod.snd)

/-! ### Sourcing scorer and budget fallback
(`Agentic_AI/apps/agent3_sourcing/main.py`) -/

/-- A raw catalog entry (`mock_catalog.json` rows) with the fields the
sourcing agent reads.  Day counts are modelled in `ℚ` as they immediately
enter the min-max normalisation arithmetic. -/
structure CatalogItem where
  vendor : String
  title : String
  price_usd : ℚ
  shipping_days : ℚ
  eta_days : ℚ
  url : String
  category : Option String := none
  keywords : List String := []
  deriving Repr, DecidableEq

/-- `_norm`, lines 31-37: min-max normalise, all-`0.5` when the spread is
below `1e-9`. -/
def norm_list (values : List ℚ) : List ℚ :=
  match values with
  | [] => []
  | v :: vs =>
    let mn := vs.foldl min v
    let mx := vs.foldl max v
    if |mx - mn| < 1/1000000000 then values.map (fun _ => 1/2)
    else values.map (fun x => (x - mn) / (mx - mn))

/-- The intent fields the scorer reads (`PurchaseIntent`). -/
structure IntentS3 where
  item_name : String
  color : Option String := none
  brand : Option String := none
  category : Option String := none
  budget_usd : Option ℚ := none
  deriving Repr

/-- `_match_bonus`, lines 104-122. -/
def match_bonus (pi : IntentS3) (item : CatalogItem) : ℚ :=
  let title := pyLower item.title
  let keywords := item.keywords.map pyLower
  let bonus : ℚ := 0
  let bonus := match pi.brand with
    | some b =>
      let brand := pyLower b
      if brand ≠ "" ∧ (pyIn brand title ∨ keywords.any (fun kw => pyIn brand kw)) then
        bonus + 1/4 else bonus
    | none => bonus
  let bonus := match pi.color with
    | some c =>
      let color := pyLower c
      if color ≠ "" ∧ (pyIn color title ∨ keywords.any (fun kw => pyIn color kw)) then
        bonus + 15/100 else bonus
    | none => bonus
  let bonus :=
    let name := pyLower pi.item_name
    if pi.item_name ≠ "" ∧ (pyIn name title ∨ keywords.any (fun kw => pyIn name kw)) then
      bonus + 1/5 else bonus
  let bonus := match pi.budget_usd with
    | some b => if b ≠ 0 ∧ item.price_usd ≠ 0 ∧ item.price_usd ≤ b then bonus + 1/10 else bonus
    | none => bonus
  bonus

/-- `_rewrite_url`, lines 125-127: point the offer at the mock site,
keeping the slug.  `base` is the `MOCK_SITE_BASE` environment value. -/
def rewrite_url (base url : String) : String :=
  let slug := ((pyRstripSlash url).splitOn "/").getLastD ""
  base ++ "/" ++ slug

/-- Python `round(x, 4)` (round half to even on the exact value). -/
def round4 (x : ℚ) : ℚ :=
  let y := x * 10000
  let f := Int.floor y
  let r := y - f
  let n : ℤ :=
    if r < 1/2 then f
    else if r > 1/2 then f + 1
    else if f % 2 = 0 then f else f + 1
  (n : ℚ) / 10000

/-- The `Offer(**payload)` built by `_score_item` and
`_best_budget_fallback`: the catalog fields with the given score and the
rewritten URL. -/
def offerOfItem (base : String) (item : CatalogItem) (score : ℚ) : Offer :=
  { vendor := item.vendor, title := item.title, price_usd := item.price_usd,
    shipping_days := Int.floor item.shipping_days, eta_days := Int.floor item.eta_days,
    url := rewrite_url base item.url, score := score,
    category := item.category, keywords := some item.keywords,
    description := some "" }

/-- `_score_item`, lines 130-140: weighted base score plus bonuses, rounded
to four decimals. -/
def score_item (base : String) (pi : IntentS3) (item : CatalogItem) (idx : ℕ)
    (price_norm ship_norm eta_norm : List ℚ) : Offer :=
  let b := (1 - price_norm.getD idx 0) * (6/10) + (1 - ship_norm.getD idx 0) * (2/10)
            + (1 - eta_norm.getD idx 0) * (2/10)
  offerOfItem base item (round4 (b + match_bonus pi item))

/-- The within-budget catalog rows of `_best_budget_fallback`, line 144:
`pi.budget_usd and c.get("price_usd") <= pi.budget_usd`. -/
def budgetItems (pi : IntentS3) (catalog : List CatalogItem) : List CatalogItem :=
  catalog.filter (fun c => truthyQ pi.budget_usd && decide (c.price_usd ≤ pi.budget_usd.getD 0))

/-- Ascending-price order on catalog rows (`key=lambda c: c.get("price_usd",
0)`). -/
def priceAscItem (a b : CatalogItem) : Prop := a.price_usd ≤ b.price_usd

instance : DecidableRel priceAscItem :=
  fun a b => inferInstanceAs (Decidable (a.price_usd ≤ b.price_usd))

instance : IsTotal CatalogItem priceAscItem := ⟨fun a b => le_total a.price_usd b.price_usd⟩

instance : IsTrans CatalogItem priceAscItem := ⟨fun _ _ _ h₁ h₂ => le_trans h₁ h₂⟩

/-- `_best_budget_fallback`, lines 143-153: up to `top_k` cheapest
within-budget items, each with fixed score `0.5`. -/
def best_budget_fallback (base : String) (pi : IntentS3) (catalog : List CatalogItem)
    (top_k : ℕ) : List Offer :=
  ((List.insertionSort priceAscItem (budgetItems pi catalog)).take top_k).map
    (fun item => offerOfItem base item (1/2))

/-- The deterministic shortlist of `_score_candidates`, lines 160-173: score
every candidate against the min-max norms, sort by descending score (stable),
take `top_k`. -/
def shortlist (base : String) (pi : IntentS3) (candidates : List CatalogItem)
    (top_k : ℕ) : List Offer :=
  let price_norm := norm_list (candidates.map (·.price_usd))
  let ship_norm := norm_list (candidates.map (·.shipping_days))
  let eta_norm := norm_list (candidates.map (·.eta_days))
  let offers := candidates.enum.map
    (fun p => score_item base pi p.2 p.1 price_norm ship_norm eta_norm)
  (List.insertionSort scoreDesc offers).take top_k

/-- `_score_candidates`, lines 156-188, on its deterministic path (the
LLM rerank is behind the `USE_LANGCHAIN_SOURCING` flag and an external
provider): the shortlist, or the budget fallback when the shortlist is empty
and a budget is set. -/
def score_candidates (base : String) (pi : IntentS3) (candidates catalog : List CatalogItem)
    (top_k : ℕ) : List Offer :=
  let shortlisted := shortlist base pi candidates top_k
  if shortlisted = [] ∧ truthyQ pi.budget_usd then
    best_budget_fallback base pi catalog top_k
  else shortlisted

/-! ### Checkout admission and idempotent pay
(`Agentic_AI/apps/agent5_checkout/main.py`) -/

/-- `PaymentInput` (`libs/schemas/models.py`). -/
structure PaymentInput where
  card_number : String
  expiry_mm_yy : String
  cvv : String
  amount_usd : ℚ
  deriving Repr, DecidableEq

/-- `Receipt` (`libs/schemas/models.py`); `pay` always fills every field. -/
structure Receipt where
  order_id : String
  idempotency_key : String
  amount_usd : ℚ
  vendor : String
  card_brand : String
  masked_card : String
  deriving Repr, DecidableEq

/-- The module-level mutable state of the checkout agent: `_RECEIPT_STORE`
(an insertion-ordered dict) and `_CARD_ACTIVITY`. -/
structure PayState where
  store : List (String × Receipt) := []
  activity : List (String × ℤ) := []
  deriving Repr

/-- The distinct `ValueError` raise sites of `pay` and its helpers, in
source order. -/
inductive PayError where
  | invalidAmount         -- "Invalid offer amount"
  | amountExceedsLimit    -- "Amount exceeds checkout limit"
  | vendorBlocked         -- "Vendor not allowed"
  | cardTooShort          -- "Card number too short"
  | invalidCardLength     -- "Invalid card" (_validate_card_length)
  | velocity              -- "Card flagged for excessive failed attempts"
  | invalidExpiry         -- "Invalid expiry"
  | cardExpired           -- "Card expired"
  | luhnFailed            -- "Invalid card" (luhn_check)
  | invalidCvv            -- "Invalid CVV"
  deriving Repr, DecidableEq

/-- `_digits`: keep the digit characters. -/
def pyDigits (card_number : String) : String :=
  String.mk (card_number.toList.filter Char.isDigit)

/-- `_detect_card_type`, lines 25-35. -/
def detect_card_type (digits : String) : String :=
  let ds := digits.toList
  if charsPre "4".toList ds then "visa"
  else if ["51", "52", "53", "54", "55"].any (fun p => charsPre p.toList ds) then "mastercard"
  else if charsPre "34".toList ds || charsPre "37".toList ds then "amex"
  else if charsPre "6".toList ds then "discover"
  else "unknown"

/-- `_mask_card`, lines 38-39. -/
def mask_card (digits : String) : String :=
  String.mk (List.replicate (digits.length - 4) '*') ++
    String.mk (digits.toList.drop (digits.length - 4))

/-- `_validate_offer`, lines 42-48 (`CHECKOUT_MAX_AMOUNT` at its default
`5000`; the blacklist of line 15). -/
def validate_offer (offer : Offer) : Option PayError :=
  if offer.price_usd ≤ 0 then some .invalidAmount
  else if offer.price_usd > 5000 then some .amountExceedsLimit
  else if offer.vendor ∈ ["FraudCo", "ScamSupply", "UnknownMart"] then some .vendorBlocked
  else none

/-- `_validate_card_length`, lines 57-64: `none` when the length fits the
detected brand. -/
def validate_card_length (digits : String) (card_brand : String) : Bool :=
  let length := digits.length
  if card_brand = "amex" ∧ length ≠ 15 then false
  else if card_brand ∈ ["visa", "mastercard", "discover"] ∧ length ≠ 16 then false
  else if card_brand = "unknown" ∧ ¬(13 ≤ length ∧ length ≤ 19) then false
  else true

/-- `_CARD_ACTIVITY.get(card, 0)`. -/
def getActivity (st : PayState) (digits : String) : ℤ :=
  (lookupStr digits st.activity).getD 0

/-- Python dict assignment `d[k] = v`: replace in place, else append. -/
def setAssoc {β : Type} (l : List (String × β)) (k : String) (v : β) : List (String × β) :=
  if (lookupStr k l).isSome then
    l.map (fun p => if p.1 = k then (k, v) else p)
  else l ++ [(k, v)]

/-- `_CARD_ACTIVITY[digits] = _CARD_ACTIVITY.get(digits, 0) + 1`. -/
def bumpActivity (st : PayState) (digits : String) : PayState :=
  { st with activity := setAssoc st.activity digits (getActivity st digits + 1) }

/-- `validate_expiry` (`libs/utils/payment.py`, lines 21-22):
full match of `(0[1-9]|1[0-2])/\d{2}`. -/
def validate_expiry (exp : String) : Bool :=
  match exp.toList with
  | [a, b, '/', c, d] =>
    ((a == '0' && '1' ≤ b && b ≤ '9') || (a == '1' && '0' ≤ b && b ≤ '2'))
      && c.isDigit && d.isDigit
  | _ => false

/-- The reference UTC date (year, month) handed to `expiry_is_future`
(`datetime.utcnow()`, an ambient input of the engine). -/
structure Today where
  year : ℤ
  month : ℤ
  deriving Repr

/-- `expiry_is_future` (`libs/utils/payment.py`, lines 25-36). -/
def expiry_is_future (now : Today) (exp : String) : Bool :=
  if ¬ validate_expiry exp then false
  else match exp.toList with
    | [a, b, _, c, d] =>
      let month : ℤ := 10 * (a.toNat - 48 : ℤ) + (b.toNat - 48 : ℤ)
      let year : ℤ := 2000 + 10 * (c.toNat - 48 : ℤ) + (d.toNat - 48 : ℤ)
      if year > now.year then true
      else if year < now.year then false
      else month ≥ now.month
    | _ => false

/-- `luhn_check` (`libs/utils/payment.py`, lines 6-18). -/
def luhn_check (card_number : String) : Bool :=
  let digits := (card_number.toList.filter Char.isDigit).map (fun c => (c.toNat - 48 : ℤ))
  if digits = [] then false
  else
    let parity := digits.length % 2
    let checksum := (digits.enum.map (fun p =>
      if p.1 % 2 = parity then
        (let d := p.2 * 2; if d > 9 then d - 9 else d)
      else p.2)).foldl (· + ·) 0
    checksum % 10 == 0

/-- `validate_cvv` (`libs/utils/payment.py`, lines 39-40): exactly three
digits. -/
def validate_cvv (cvv : String) : Bool :=
  match cvv.toList with
  | [a, b, c] => a.isDigit && b.isDigit && c.isDigit
  | _ => false

/-- The canonical JSON payload of `pay`, lines 96-105: `json.dumps` of the
five fields with sorted keys (`amount`, `card`, `card_type`, `title`,
`vendor`).  The float rendering of `amount` is abstracted by printing the
exact rational. -/
def payPayload (offer : Offer) (masked card_brand : String) : String :=
  "\x7b\"amount\": " ++ toString offer.price_usd ++ ", \"card\": \"" ++ masked ++
    "\", \"card_type\": \"" ++ card_brand ++ "\", \"title\": \"" ++ offer.title ++
    "\", \"vendor\": \"" ++ offer.vendor ++ "\"\x7d"

instance : DecidableEq (Except PayError Receipt) := fun
  | .ok a, .ok b =>
      if h : a = b then isTrue (by rw [h]) else isFalse (by simp [h])
  | .error a, .error b =>
      if h : a = b then isTrue (by rw [h]) else isFalse (by simp [h])
  | .ok _, .error _ => isFalse (by simp)
  | .error _, .ok _ => isFalse (by simp)

/-- The result of one `pay` call: the returned receipt or the raised error,
the mutated module state, and the caller's `PaymentInput` after `pay`'s
in-place write of `payment.card_number` (line 73). -/
structure PayOutcome where
  result : Except PayError Receipt
  state : PayState
  payment : PaymentInput

/-- `pay`, lines 67-120.  `hash` is the SHA-256 hex digest
(`idempotency_key` of `libs/utils/payment.py`, backed by `hashlib`, an
external primitive injected as a parameter) and `now` the current UTC date. -/
def pay (hash : String → String) (now : Today) (offer : Offer)
    (payment : PaymentInput) (idem_key : String) (st : PayState) : PayOutcome :=
  match validate_offer offer with
  | some e => ⟨.error e, st, payment⟩
  | none =>
    let digits := pyDigits payment.card_number
    if digits.length < 13 then ⟨.error .cardTooShort, st, payment⟩
    else
      let payment := { payment with card_number := digits }
      let card_brand := detect_card_type digits
      if ¬ validate_card_length digits card_brand then
        ⟨.error .invalidCardLength, st, payment⟩
      else if getActivity st digits > 5 then ⟨.error .velocity, st, payment⟩
      else if ¬ validate_expiry payment.expiry_mm_yy then
        ⟨.error .invalidExpiry, bumpActivity st digits, payment⟩
      else if ¬ expiry_is_future now payment.expiry_mm_yy then
        ⟨.error .cardExpired, bumpActivity st digits, payment⟩
      else if ¬ luhn_check digits then
        ⟨.error .luhnFailed, bumpActivity st digits, payment⟩
      else if ¬ validate_cvv payment.cvv then
        ⟨.error .invalidCvv, bumpActivity st digits, payment⟩
      else
        let st := { st with activity := setAssoc st.activity digits 0 }
        let masked := mask_card digits
        let calc_key := hash (payPayload offer masked card_brand)
        let key := if idem_key = "" then calc_key else idem_key
        match lookupStr key st.store with
        | some r => ⟨.ok r, st, payment⟩
        | none =>
          let r : Receipt :=
            { order_id := String.mk (calc_key.toList.take 12), idempotency_key := key,
              amount_usd := offer.price_usd, vendor := offer.vendor,
              card_brand := card_brand, masked_card := masked }
          ⟨.ok r, { st with store := setAssoc st.store key r }, payment⟩

/-- The idempotency key a `pay` call effectively uses: the supplied key, or
the payload digest when the supplied key is empty (line 107). -/
def payEffectiveKey (hash : String → String) (offer : Offer) (payment : PaymentInput)
    (idem_key : String) : String :=
  let digits := pyDigits payment.card_number
  if idem_key = "" then
    hash (payPayload offer (mask_card digits) (detect_card_type digits))
  else idem_key

/-- The receipt `pay` constructs on its fresh-key path (lines 111-118). -/
def mkReceipt (hash : String → String) (offer : Offer) (payment : PaymentInput)
    (idem_key : String) : Receipt :=
  let digits := pyDigits payment.card_number
  let card_brand := detect_card_type digits
  let masked := mask_card digits
  let calc_key := hash (payPayload offer masked card_brand)
  { order_id := String.mk (calc_key.toList.take 12),
    idempotency_key := if idem_key = "" then calc_key else idem_key,
    amount_usd := offer.price_usd, vendor := offer.vendor,
    card_brand := card_brand, masked_card := masked }

/-- The admission prefix in front of the velocity gate: a valid offer, at
least 13 card digits, and a brand-consistent length. -/
def reachesVelocityGate (offer : Offer) (payment : PaymentInput) : Bool :=
  (validate_offer offer).isNone
    && decide (13 ≤ (pyDigits payment.card_number).length)
    && validate_card_length (pyDigits payment.card_number)
        (detect_card_type (pyDigits payment.card_number))

/-! ### Concrete scenario data

Closed inputs used to evaluate the embedded code on the spec's scenarios
(sections 8.A-8.E) and on the inputs that decide the claims. -/

/-- A deployment without the optional price-reference store: every z-score
provider call reports nothing (`compute_price_z` et al. return `None`). -/
def noSig : Offer → PriceRefSignals := fun _ => {}

/-- A Mockazon offer whose `domain_name` attribute is not an Amazon
marketplace, so S4 raises its risk to medium. -/
def mockO : Offer :=
  { vendor := "Mockazon", title := "Water Bottle", price_usd := 20, shipping_days := 2,
    eta_days := 3, url := "http://mock/bottle-1", score := 1,
    attributes_domain_name := some "mockazon.com" }

/-- A clean Shoply offer at the same price (assessed low). -/
def shopO : Offer :=
  { vendor := "Shoply", title := "Water Bottle", price_usd := 20, shipping_days := 2,
    eta_days := 3, url := "http://mock/bottle-2", score := 1 }

/-- A GigaDeal offer (profile-assessed high, scenario 8.B). -/
def gigaO : Offer :=
  { vendor := "GigaDeal", title := "Water Bottle", price_usd := 20, shipping_days := 2,
    eta_days := 3, url := "http://mock/bottle-3", score := 1 }

/-- An offer from a vendor without a profile entry: assessed with the
pessimistic default, hence high. -/
def weirdO : Offer :=
  { vendor := "WeirdShop", title := "Water Bottle", price_usd := 20, shipping_days := 2,
    eta_days := 3, url := "http://mock/bottle-4", score := 1 }

/-- S4 state after sourcing `[mockO, shopO]` with `mockO` selected. -/
def stSwap : SagaStateS4 := { offers := [mockO, shopO], best_offer := some mockO }

/-- S4 state after sourcing `[gigaO, shopO]` with `gigaO` selected
(scenario 8.B: high-risk best, low-risk alternative in the window). -/
def stGiga : SagaStateS4 := { offers := [gigaO, shopO], best_offer := some gigaO }

/-- S4 state with a medium-risk best offer and a high-risk alternative. -/
def stMed : SagaStateS4 := { offers := [mockO, weirdO], best_offer := some mockO }

/-- A benign profile whose only score contributions come through the returns
branch: returns accepted with a 20-day refund window. -/
def badP : VendorProfile :=
  { tls := true, domain_age_days := 400, has_policy_pages := true,
    historical_issues := false, happy_reviews_pct := 8/10, accepts_returns := true,
    average_refund_time_days := 20 }

/-- An offer whose vendor name and URL both carry suspicious triggers. -/
def scamO : Offer :=
  { vendor := "ScamSupply", title := "Widget", price_usd := 10, shipping_days := 2,
    eta_days := 3, url := "https://scamsupply.example/click" }

/-- Scenario 8.C: a listing titled with replica cues. -/
def replO : Offer :=
  { vendor := "Mockazon", title := "Inspired by Nike style bottle", price_usd := 20,
    shipping_days := 2, eta_days := 3, url := "http://mock/bottle-5", score := 1 }

/-- A minimal assessment to enrich in witnesses. -/
def plainTrust : TrustAssessment := { vendor := "Mockazon", risk := "low" }

/-- Scenario 8.E catalog: two laptops within a 200 budget, one above it. -/
def itemCheap : CatalogItem :=
  { vendor := "Mockazon", title := "Basic Laptop", price_usd := 150, shipping_days := 3,
    eta_days := 5, url := "http://shop/laptop-basic", category := some "electronics" }

/-- Second within-budget catalog row. -/
def itemMid : CatalogItem :=
  { vendor := "Shoply", title := "Student Laptop", price_usd := 180, shipping_days := 2,
    eta_days := 4, url := "http://shop/laptop-student", category := some "electronics" }

/-- Catalog row above the 200 budget. -/
def itemPro : CatalogItem :=
  { vendor := "SuperMart", title := "Pro Laptop", price_usd := 900, shipping_days := 1,
    eta_days := 2, url := "http://shop/laptop-pro", category := some "electronics" }

/-- Scenario 8.E intent: a laptop under 200 USD. -/
def laptopIntent : IntentS3 :=
  { item_name := "laptop", category := some "electronics", budget_usd := some 200 }

/-- Scenario 8.A/8.D offer at checkout. -/
def okOffer : Offer :=
  { vendor := "Mockazon", title := "Water Bottle", price_usd := 20, shipping_days := 2,
    eta_days := 3, url := "http://mock/bottle-1", score := 1 }

/-- Scenario 8.A payment: test Visa, future expiry, valid CVV. -/
def goodPay : PaymentInput :=
  { card_number := "4242 4242 4242 4242", expiry_mm_yy := "12/29", cvv := "123",
    amount_usd := 20 }

/-- A payment failing the Luhn check (final digit off by one). -/
def luhnBadPay : PaymentInput :=
  { card_number := "4242424242424243", expiry_mm_yy := "12/29", cvv := "123",
    amount_usd := 20 }

/-- The engine's clock during the scenarios. -/
def today : Today := { year := 2026, month := 10 }

/-- A stand-in injective-enough digest for witnesses (the theorems quantify
over the hash function). -/
def idHash : String → String := fun s => s

/-- The receipt the witness `pay` call constructs (under `idHash`, the
order id is the first 12 characters of the canonical payload). -/
def witReceipt : Receipt :=
  { order_id := "\x7b\"amount\": 2", idempotency_key := "k-1", amount_usd := 20,
    vendor := "Mockazon", card_brand := "visa", masked_card := "************4242" }

/-! ## Helper lemmas -/

theorem idxOf?_lt_length {x : String} :
    ∀ {l : List String} {i : ℕ}, idxOf? x l = some i → i < l.length := by
  intro l
  induction l with
  | nil => intro i h; simp [idxOf?] at h
  | cons a t ih =>
    intro i h
    simp only [idxOf?] at h
    split at h
    · simp only [Option.some.injEq] at h
      subst h
      simp
    · rcases Option.map_eq_some'.mp h with ⟨j, hj, hji⟩
      have := ih hj
      simp only [List.length_cons]
      omega

/-- Raising to `high` lands on `high` whatever the current band string is. -/
theorem raise_risk_high (r : String) : raise_risk r "high" = "high" := by
  unfold raise_risk
  rcases h : idxOf? r riskOrder with _ | i
  · simp [idxOf?, riskOrder]
  · have hi : i < 3 := by simpa [riskOrder] using idxOf?_lt_length h
    have h2 : idxOf? "high" riskOrder = some 2 := by simp [idxOf?, riskOrder]
    simp [h, h2]
    have : max i 2 = 2 := by omega
    simp [this, riskOrder]

theorem insertStr_ne_nil (x : String) (l : List String) : insertStr x l ≠ [] := by
  cases l with
  | nil => simp [insertStr]
  | cons h t => simp only [insertStr]; split <;> simp

theorem sortStrs_ne_nil {l : List String} (h : l ≠ []) : sortStrs l ≠ [] := by
  cases l with
  | nil => exact absurd rfl h
  | cons a t => simpa [sortStrs] using insertStr_ne_nil a (sortStrs t)

/-- A replica term occurring in the text blob makes the hit list
non-empty. -/
theorem replicaHits_ne_nil {best : Offer}
    (h : ∃ term ∈ REPLICA_TERMS, pyIn term (replicaBlob best) = true) :
    replicaHits best ≠ [] := by
  rcases h with ⟨t, ht, hp⟩
  apply sortStrs_ne_nil
  have : t ∈ (REPLICA_TERMS.filter (fun s => pyIn s (replicaBlob best))).dedup := by
    simp [List.mem_dedup, List.mem_filter, ht, hp]
  intro he
  rw [he] at this
  simp at this

/-! ## Claim C4 — token cap never exceeded -/

/-- C4: for every run and stage, across any sequence of `charge` calls on
the token budgeter, the accumulated `used[stage]` counter never exceeds the
configured cap: each charge increments `used` by `min(n_tokens, cap - used)`
(given the invariant `used ≤ cap`), and `used ≤ cap` is preserved by every
operation, so a whole charge history starting from `0` stays within the
cap. -/
theorem token_cap_never_exceeded (cap : ℤ) (hcap : 0 ≤ cap) :
    (∀ used n : ℤ, used ≤ cap →
        charge_used cap used n = used + min n (cap - used) ∧ charge_used cap used n ≤ cap)
    ∧ ∀ charges : List ℤ, List.foldl (charge_used cap) 0 charges ≤ cap := by
  have step : ∀ used n : ℤ, used ≤ cap → charge_used cap used n ≤ cap := by
    intro used n h
    simp only [charge_used]
    omega
  refine ⟨fun used n h => ⟨?_, step used n h⟩, ?_⟩
  · have hmax : max 0 (cap - used) = cap - used := max_eq_right (by omega)
    rw [charge_used, hmax]
  · intro charges
    have aux : ∀ (l : List ℤ) (used : ℤ), used ≤ cap →
        List.foldl (charge_used cap) used l ≤ cap := by
      intro l
      induction l with
      | nil => intro used h; simpa using h
      | cons a t ih => intro used h; exact ih _ (step used a h)
    exact aux charges 0 hcap

/-- Witness for C4 at the default S1 cap of 800 and a charge history that
overshoots it. -/
theorem token_cap_never_exceeded_witness :
    (0:ℤ) ≤ 800 ∧ List.foldl (charge_used 800) 0 [500, 400, 300] ≤ 800 :=
  ⟨by decide, (token_cap_never_exceeded 800 (by decide)).2 [500, 400, 300]⟩

/-! ## Claim C5 — rule-based risk band (corrected) -/

/-- Counterexample to C5 as stated: on a profile with returns accepted and a
20-day refund window, and an offer whose vendor name and URL both carry a
trigger, the code's band is `medium` (refund rows are exclusive `elif`s and
the two trigger rows share a single `+2`), while the claim's literally
additive score `1 + 1/2 + 2 + 2 = 11/2` maps to `high`. -/
theorem rule_risk_additive_counterexample :
    compute_risk badP scamO = "medium" ∧
    riskBand (specAdditiveScore badP scamO) = "high" ∧
    compute_risk badP scamO ≠ riskBand (specAdditiveScore badP scamO) := by
  have hsv : suspicious_vendor_name "ScamSupply" = true := by decide
  have hsu : suspicious_url "https://scamsupply.example/click" = true := by decide
  have h1 : compute_risk badP scamO = "medium" := by
    have hs : compute_risk_score badP scamO = 3 := by
      norm_num [compute_risk_score, badP, scamO, hsv, hsu]
    rw [compute_risk, hs]; norm_num [riskBand]
  have h2 : riskBand (specAdditiveScore badP scamO) = "high" := by
    have hs : specAdditiveScore badP scamO = 11/2 := by
      norm_num [specAdditiveScore, badP, scamO, hsv, hsu]
    rw [hs]; norm_num [riskBand]
  refine ⟨h1, h2, ?_⟩
  rw [h1, h2]; decide

/-- C5 as amended: for every offer and vendor profile, the rule-based risk
band equals the band of the additively accumulated score where the refund-day
weights are mutually exclusive alternatives inside the returns branch and the
vendor-name/URL triggers contribute a single `+2` when either fires; bands:
score ≤ 1 → low, score ≤ 3.5 → medium, else high. -/
theorem rule_risk_band_of_amended_score (p : VendorProfile) (o : Offer) :
    compute_risk p o = riskBand (amendedAdditiveScore p o) := by
  have addIf : ∀ (c : Prop) [Decidable c] (s w : ℚ),
      (if c then s + w else s) = s + (if c then w else 0) := by
    intro c i s w; split <;> simp
  have hs : compute_risk_score p o = amendedAdditiveScore p o := by
    simp only [compute_risk_score, amendedAdditiveScore, addIf]
    by_cases h1 : ¬p.accepts_returns = true
    · simp only [if_pos h1]; ring
    · by_cases h2 : p.average_refund_time_days > 14
      · simp only [if_neg h1, if_pos h2]; ring
      · by_cases h3 : p.average_refund_time_days > 10
        · simp only [if_neg h1, if_neg h2, if_pos h3]; ring
        · simp only [if_neg h1, if_neg h2, if_neg h3]; ring
  rw [compute_risk, hs]

/-! ## Claim C6 — replica cues force high risk -/

/-- C6: whenever the best offer's title, description or keywords contain any
term of the fixed replica list, the S4 enrichment records the sorted set of
matching terms in the assessment's `replica_terms` and the final risk band of
that assessment is `high`, regardless of the incoming (vendor-profile-scored)
assessment. -/
theorem replica_cues_force_high (hyp : Option Hypothesis) (best : Offer)
    (t : TrustAssessment)
    (h : ∃ term ∈ REPLICA_TERMS, pyIn term (replicaBlob best) = true) :
    (enrichTrust hyp best t).risk = "high" ∧
    (enrichTrust hyp best t).replica_terms = some (replicaHits best) := by
  have hh := replicaHits_ne_nil h
  simp only [enrichTrust]
  split_ifs <;>
    simp_all [raise_risk_high, show raise_risk "high" "medium" = "high" from by decide]

/-- Witness for C6 on scenario 8.C: the replica-cued listing records
`["inspired", "style"]` and lands on `high` over a low-risk assessment. -/
theorem replica_cues_force_high_witness :
    (∃ term ∈ REPLICA_TERMS, pyIn term (replicaBlob replO) = true) ∧
    ((enrichTrust none replO plainTrust).risk = "high" ∧
      (enrichTrust none replO plainTrust).replica_terms = some (replicaHits replO)) :=
  ⟨by decide, replica_cues_force_high none replO plainTrust (by decide)⟩

/-! ## Evaluation lemmas for the S4 scenarios -/

theorem assess_mockO : assess (noSig mockO) mockO = { vendor := "Mockazon", risk := "low" } := by
  have hv : mockO.vendor = "Mockazon" := rfl
  have hu : mockO.url = "http://mock/bottle-1" := rfl
  have hsv : suspicious_vendor_name "Mockazon" = false := by decide
  have hsu : suspicious_url "http://mock/bottle-1" = false := by decide
  have hs : compute_risk_score (profileFor "Mockazon") mockO = 0 := by
    simp [compute_risk_score, profileFor, VENDOR_PROFILES, lookupStr, hv, hu, hsv, hsu]
    norm_num
  have hr : compute_risk (profileFor "Mockazon") mockO = "low" := by
    rw [compute_risk, hs]; norm_num [riskBand]
  simp [assess, noSig, hv, hr]

theorem assess_shopO : assess (noSig shopO) shopO = { vendor := "Shoply", risk := "low" } := by
  have hv : shopO.vendor = "Shoply" := rfl
  have hu : shopO.url = "http://mock/bottle-2" := rfl
  have hsv : suspicious_vendor_name "Shoply" = false := by decide
  have hsu : suspicious_url "http://mock/bottle-2" = false := by decide
  have hs : compute_risk_score (profileFor "Shoply") shopO = 0 := by
    simp [compute_risk_score, profileFor, VENDOR_PROFILES, lookupStr, hv, hu, hsv, hsu]
    norm_num
  have hr : compute_risk (profileFor "Shoply") shopO = "low" := by
    rw [compute_risk, hs]; norm_num [riskBand]
  simp [assess, noSig, hv, hr]

theorem assess_gigaO : assess (noSig gigaO) gigaO = { vendor := "GigaDeal", risk := "high" } := by
  have hv : gigaO.vendor = "GigaDeal" := rfl
  have hu : gigaO.url = "http://mock/bottle-3" := rfl
  have hsv : suspicious_vendor_name "GigaDeal" = false := by decide
  have hsu : suspicious_url "http://mock/bottle-3" = false := by decide
  have hs : compute_risk_score (profileFor "GigaDeal") gigaO = 7 := by
    simp [compute_risk_score, profileFor, VENDOR_PROFILES, lookupStr, hv, hu, hsv, hsu]
    norm_num
  have hr : compute_risk (profileFor "GigaDeal") gigaO = "high" := by
    rw [compute_risk, hs]; norm_num [riskBand]
  simp [assess, noSig, hv, hr]

theorem assess_weirdO : assess (noSig weirdO) weirdO = { vendor := "WeirdShop", risk := "high" } := by
  have hv : weirdO.vendor = "WeirdShop" := rfl
  have hu : weirdO.url = "http://mock/bottle-4" := rfl
  have hsv : suspicious_vendor_name "WeirdShop" = false := by decide
  have hsu : suspicious_url "http://mock/bottle-4" = false := by decide
  have hs : compute_risk_score (profileFor "WeirdShop") weirdO = 11 := by
    simp [compute_risk_score, profileFor, VENDOR_PROFILES, defaultProfile, lookupStr,
      hv, hu, hsv, hsu]
    norm_num
  have hr : compute_risk (profileFor "WeirdShop") weirdO = "high" := by
    rw [compute_risk, hs]; norm_num [riskBand]
  simp [assess, noSig, hv, hr]


theorem enrich_mockO : enrichTrust none mockO (assess (noSig mockO) mockO) =
    { vendor := "Mockazon", risk := "medium", domain_mismatch := some true,
      vision_mismatch := some false,
      auth_reasons := some ["Domain is not an Amazon marketplace"] } := by
  rw [assess_mockO]
  have hd : domainMismatchOf mockO = true := by decide
  have hb : brandMismatchOf none mockO = false := by decide
  have hc : colorMismatchOf none mockO = false := by decide
  have hh : replicaHits mockO = [] := by decide
  simp [enrichTrust, enrichAuthReasons, hd, hb, hc, hh, raise_risk, idxOf?, riskOrder]

theorem enrich_gigaO : enrichTrust none gigaO (assess (noSig gigaO) gigaO) =
    { vendor := "GigaDeal", risk := "high", vision_mismatch := some false } := by
  rw [assess_gigaO]
  have hd : domainMismatchOf gigaO = false := by decide
  have hb : brandMismatchOf none gigaO = false := by decide
  have hc : colorMismatchOf none gigaO = false := by decide
  have hh : replicaHits gigaO = [] := by decide
  simp [enrichTrust, enrichAuthReasons, hd, hb, hc, hh]

theorem trust_node_stSwap : trust_node noSig stSwap mockO =
    { best_offer := shopO, trust := { vendor := "Shoply", risk := "low" },
      offers := [mockO, shopO] } := by
  have hne : ¬ (shopO = mockO) := by decide
  have hcomp : compensate noSig mockO
      ({ vendor := "Mockazon", risk := "medium", domain_mismatch := some true,
         vision_mismatch := some false,
         auth_reasons := some ["Domain is not an Amazon marketplace"] })
      3 10 mockO.price_usd [mockO, shopO] 0 =
      (shopO, { vendor := "Shoply", risk := "low" }) := by
    simp only [compensate, assess_shopO]
    norm_num [hne, show mockO.price_usd = 20 from rfl, show shopO.price_usd = 20 from rfl,
      show pyStrLt "low" "medium" = true from by decide]
  simp only [trust_node, stSwap, enrich_mockO]
  norm_num [hcomp]

theorem trust_node_stGiga : trust_node noSig stGiga gigaO =
    { best_offer := gigaO,
      trust := { vendor := "GigaDeal", risk := "high", vision_mismatch := some false },
      offers := [gigaO, shopO] } := by
  have hne : ¬ (shopO = gigaO) := by decide
  have hcomp : compensate noSig gigaO
      ({ vendor := "GigaDeal", risk := "high", vision_mismatch := some false })
      3 10 gigaO.price_usd [gigaO, shopO] 0 =
      (gigaO, { vendor := "GigaDeal", risk := "high", vision_mismatch := some false }) := by
    simp only [compensate, assess_shopO]
    norm_num [hne, show gigaO.price_usd = 20 from rfl, show shopO.price_usd = 20 from rfl,
      show pyStrLt "low" "high" = false from by decide]
  simp only [trust_node, stGiga, enrich_gigaO]
  norm_num [hcomp]

theorem trust_node_stMed : trust_node noSig stMed mockO =
    { best_offer := weirdO, trust := { vendor := "WeirdShop", risk := "high" },
      offers := [mockO, weirdO] } := by
  have hne : ¬ (weirdO = mockO) := by decide
  have hcomp : compensate noSig mockO
      ({ vendor := "Mockazon", risk := "medium", domain_mismatch := some true,
         vision_mismatch := some false,
         auth_reasons := some ["Domain is not an Amazon marketplace"] })
      3 10 mockO.price_usd [mockO, weirdO] 0 =
      (weirdO, { vendor := "WeirdShop", risk := "high" }) := by
    simp only [compensate, assess_weirdO]
    norm_num [hne, show mockO.price_usd = 20 from rfl, show weirdO.price_usd = 20 from rfl,
      show pyStrLt "high" "medium" = true from by decide]
  simp only [trust_node, stMed, enrich_mockO]
  norm_num [hcomp]


/-- C1 (code bug exhibit): the source decides "safer" with Python string
`<` on the band strings, which orders high < low < medium, instead of the
enum order low < medium < high that the claim (and spec section 4.6, which
calls the source behaviour a bug) mandates.  Concretely: (a) with a
high-risk best offer and a low-risk candidate inside the price window, the
embedded `trust_node` does not switch although the claim's condition
(`specSwitch`) holds; (b) with a medium-risk best offer and a high-risk
candidate it does switch, although the claim's condition is false. -/
theorem compensation_switch_string_order_exhibit :
    ((trust_node noSig stGiga gigaO).best_offer = gigaO
      ∧ (assess (noSig shopO) shopO).risk = "low"
      ∧ (enrichTrust none gigaO (assess (noSig gigaO) gigaO)).risk = "high"
      ∧ 100 * ((shopO.price_usd - gigaO.price_usd) / gigaO.price_usd) ≤ 10
      ∧ specSwitch "low" "high" true = true)
    ∧ ((trust_node noSig stMed mockO).best_offer = weirdO
      ∧ (assess (noSig weirdO) weirdO).risk = "high"
      ∧ (enrichTrust none mockO (assess (noSig mockO) mockO)).risk = "medium"
      ∧ specSwitch "high" "medium" true = false) := by
  refine ⟨⟨by rw [trust_node_stGiga], by rw [assess_shopO], by rw [enrich_gigaO], ?_, by decide⟩,
    ⟨by rw [trust_node_stMed], by rw [assess_weirdO], by rw [enrich_mockO], by decide⟩⟩
  norm_num [show shopO.price_usd = 20 from rfl, show gigaO.price_usd = 20 from rfl]

/-- C2 (code bug exhibit): on the LangGraph path, `trust_node` returns no
`offers` key, so after a compensation switch the run's offers list is left
unchanged and its first element is not the run's best offer, contrary to the
claim and to spec invariant 3.  The final conjunct shows the `run_saga` path
does restore the invariant via its reorder (`saga.py` lines 251-253),
confirming the reorder is the codebase's own intent. -/
theorem best_offer_placement_after_s4_exhibit :
    ((trust_node noSig stSwap mockO).best_offer = shopO
      ∧ (trust_node noSig stSwap mockO).offers = [mockO, shopO]
      ∧ (trust_node noSig stSwap mockO).offers.head? ≠
          some (trust_node noSig stSwap mockO).best_offer)
    ∧ ensure_best_first [mockO, shopO] shopO = [shopO, mockO] := by
  refine ⟨⟨by rw [trust_node_stSwap], by rw [trust_node_stSwap], ?_⟩, ?_⟩
  · rw [trust_node_stSwap]
    decide
  · decide


/-! ## Claim C9 — S3 merge dedup stability -/

theorem addOffer_cons (p : String × Offer) (rest : List (String × Offer)) (o : Offer) :
    addOffer (p :: rest) o =
      if p.1 = norm_url o.url then
        (if p.2.score < o.score then (p.1, o) :: rest else p :: rest)
      else p :: addOffer rest o := rfl

theorem lookupStr_cons {β : Type} (a : String) (v : β) (t : List (String × β)) (k : String) :
    lookupStr k ((a, v) :: t) = if a = k then some v else lookupStr k t := rfl

theorem lookup_addOffer (o : Offer) (k : String) :
    ∀ m : List (String × Offer),
    lookupStr k (addOffer m o) =
      if k = norm_url o.url then
        some (match lookupStr k m with
              | none => o
              | some e => if e.score < o.score then o else e)
      else lookupStr k m := by
  intro m
  induction m with
  | nil =>
    by_cases h : k = norm_url o.url
    · simp [addOffer, lookupStr, h]
    · simp [addOffer, lookupStr, h, Ne.symm h]
  | cons p rest ih =>
    rcases p with ⟨a, v⟩
    rw [addOffer_cons]
    by_cases hp : a = norm_url o.url
    · rw [if_pos hp]
      by_cases hk : k = norm_url o.url
      · have hak : a = k := hp.trans hk.symm
        by_cases hs : v.score < o.score
        · simp [hs, hk, lookupStr_cons, hak]
        · simp [hs, hk, lookupStr_cons, hak]
      · have hak : ¬ a = k := fun h => hk (h.symm.trans hp)
        by_cases hs : v.score < o.score
        · simp [hs, hk, lookupStr_cons, hak]
        · simp [hs, hk, lookupStr_cons, hak]
    · rw [if_neg hp]
      by_cases hak : a = k
      · have hk : ¬ k = norm_url o.url := fun h => hp (hak.trans h)
        simp [lookupStr_cons, hak, hk]
      · simp [lookupStr_cons, hak, ih]

theorem keys_addOffer_subset (o : Offer) :
    ∀ m : List (String × Offer), ∀ k ∈ (addOffer m o).map Prod.fst,
      k ∈ m.map Prod.fst ∨ k = norm_url o.url := by
  intro m
  induction m with
  | nil =>
    intro k hk
    simp [addOffer] at hk
    right; exact hk
  | cons p rest ih =>
    intro k hk
    rw [addOffer_cons] at hk
    by_cases hp : p.1 = norm_url o.url
    · rw [if_pos hp] at hk
      by_cases hs : p.2.score < o.score
      · rw [if_pos hs] at hk
        simp only [List.map_cons, List.mem_cons] at hk
        rcases hk with h | h
        · right; exact h.trans hp
        · left
          simp only [List.map_cons, List.mem_cons]
          right; exact h
      · rw [if_neg hs] at hk
        left; exact hk
    · rw [if_neg hp] at hk
      simp only [List.map_cons, List.mem_cons] at hk
      rcases hk with h | h
      · left
        simp only [List.map_cons, List.mem_cons]
        left; exact h
      · rcases ih k h with h2 | h2
        · left
          simp only [List.map_cons, List.mem_cons]
          right; exact h2
        · right; exact h2


theorem nodup_keys_addOffer (o : Offer) :
    ∀ m : List (String × Offer), (m.map Prod.fst).Nodup →
      ((addOffer m o).map Prod.fst).Nodup := by
  intro m
  induction m with
  | nil => intro _; simp [addOffer]
  | cons p rest ih =>
    intro hm
    simp only [List.map_cons, List.nodup_cons] at hm
    rw [addOffer_cons]
    by_cases hp : p.1 = norm_url o.url
    · rw [if_pos hp]
      by_cases hs : p.2.score < o.score
      · rw [if_pos hs]
        simp only [List.map_cons, List.nodup_cons]
        exact ⟨hp ▸ hm.1, hm.2⟩
      · rw [if_neg hs]
        simp only [List.map_cons, List.nodup_cons]
        exact ⟨hm.1, hm.2⟩
    · rw [if_neg hp]
      simp only [List.map_cons, List.nodup_cons]
      refine ⟨?_, ih hm.2⟩
      intro hmem
      rcases keys_addOffer_subset o rest p.1 hmem with h | h
      · exact hm.1 h
      · exact hp h

theorem keyeq_addOffer (o : Offer) :
    ∀ m : List (String × Offer), (∀ p ∈ m, p.1 = norm_url p.2.url) →
      ∀ p ∈ addOffer m o, p.1 = norm_url p.2.url := by
  intro m
  induction m with
  | nil =>
    intro _ p hp
    simp [addOffer] at hp
    simp [hp]
  | cons q rest ih =>
    intro hm p hp
    rw [addOffer_cons] at hp
    by_cases hq : q.1 = norm_url o.url
    · rw [if_pos hq] at hp
      by_cases hs : q.2.score < o.score
      · rw [if_pos hs] at hp
        rcases List.mem_cons.mp hp with h | h
        · rw [h]; exact hq
        · exact hm p (List.mem_cons_of_mem q h)
      · rw [if_neg hs] at hp
        exact hm p hp
    · rw [if_neg hq] at hp
      rcases List.mem_cons.mp hp with h | h
      · exact hm p (h ▸ List.mem_cons_self q rest)
      · exact ih (fun r hr => hm r (List.mem_cons_of_mem q hr)) p h

theorem lookup_self_of_nodup {β : Type} :
    ∀ m : List (String × β), (m.map Prod.fst).Nodup →
      ∀ p ∈ m, lookupStr p.1 m = some p.2 := by
  intro m
  induction m with
  | nil => intro _ p hp; simp at hp
  | cons q rest ih =>
    intro hm p hp
    simp only [List.map_cons, List.nodup_cons] at hm
    rcases List.mem_cons.mp hp with h | h
    · rw [h, lookupStr_cons, if_pos rfl]
    · rw [lookupStr_cons]
      have hne : ¬ q.1 = p.1 := by
        intro he
        exact hm.1 (he ▸ List.mem_map_of_mem Prod.fst h)
      rw [if_neg hne]
      exact ih hm.2 p h

theorem sound_addOffer (ins : List Offer) (o : Offer) (m : List (String × Offer))
    (hm : ∀ k e, lookupStr k m = some e → e ∈ ins ∧ norm_url e.url = k) :
    ∀ k e, lookupStr k (addOffer m o) = some e → e ∈ ins ++ [o] ∧ norm_url e.url = k := by
  intro k e h
  rw [lookup_addOffer] at h
  by_cases hk : k = norm_url o.url
  · rw [if_pos hk] at h
    rcases hl : lookupStr k m with _ | e2
    · rw [hl] at h
      simp only [Option.some.injEq] at h
      subst h
      exact ⟨List.mem_append_right _ (List.mem_singleton.mpr rfl), hk.symm⟩
    · rw [hl] at h
      simp only [Option.some.injEq] at h
      by_cases hs : e2.score < o.score
      · rw [if_pos hs] at h
        subst h
        exact ⟨List.mem_append_right _ (List.mem_singleton.mpr rfl), hk.symm⟩
      · rw [if_neg hs] at h
        subst h
        have := hm k e2 hl
        exact ⟨List.mem_append_left _ this.1, this.2⟩
  · rw [if_neg hk] at h
    have := hm k e h
    exact ⟨List.mem_append_left _ this.1, this.2⟩

theorem maxi_addOffer (ins : List Offer) (o : Offer) (m : List (String × Offer))
    (hm : ∀ x ∈ ins, ∃ e, lookupStr (norm_url x.url) m = some e ∧ x.score ≤ e.score) :
    ∀ x ∈ ins ++ [o], ∃ e, lookupStr (norm_url x.url) (addOffer m o) = some e
      ∧ x.score ≤ e.score := by
  intro x hx
  rcases List.mem_append.mp hx with hx | hx
  · rcases hm x hx with ⟨e, he, hle⟩
    rw [lookup_addOffer]
    by_cases hk : norm_url x.url = norm_url o.url
    · rw [if_pos hk, he]
      by_cases hs : e.score < o.score
      · exact ⟨o, by simp [hs], le_of_lt (lt_of_le_of_lt hle hs)⟩
      · exact ⟨e, by simp [hs], hle⟩
    · rw [if_neg hk]
      exact ⟨e, he, hle⟩
  · rw [List.mem_singleton.mp hx]
    rw [lookup_addOffer, if_pos rfl]
    rcases hl : lookupStr (norm_url o.url) m with _ | e2
    · exact ⟨o, by simp [hl], le_refl _⟩
    · by_cases hs : e2.score < o.score
      · exact ⟨o, by simp [hl, hs], le_refl _⟩
      · exact ⟨e2, by simp [hl, hs], le_of_not_lt hs⟩


theorem mem_of_lookupStr {β : Type} :
    ∀ {m : List (String × β)} {k : String} {v : β}, lookupStr k m = some v → (k, v) ∈ m := by
  intro m
  induction m with
  | nil => intro k v h; simp [lookupStr] at h
  | cons p rest ih =>
    intro k v h
    rcases p with ⟨a, w⟩
    rw [lookupStr_cons] at h
    by_cases ha : a = k
    · rw [if_pos ha] at h
      simp only [Option.some.injEq] at h
      subst ha; subst h
      exact List.mem_cons_self _ _
    · rw [if_neg ha] at h
      exact List.mem_cons_of_mem _ (ih h)

theorem addAll_cons (m : List (String × Offer)) (o : Offer) (t : List Offer) :
    addAll m (o :: t) = addAll (addOffer m o) t := rfl

theorem nodup_keys_addAll :
    ∀ (lst : List Offer) (m : List (String × Offer)), (m.map Prod.fst).Nodup →
      ((addAll m lst).map Prod.fst).Nodup := by
  intro lst
  induction lst with
  | nil => intro m hm; exact hm
  | cons o t ih => intro m hm; rw [addAll_cons]; exact ih _ (nodup_keys_addOffer o m hm)

theorem keyeq_addAll :
    ∀ (lst : List Offer) (m : List (String × Offer)),
      (∀ p ∈ m, p.1 = norm_url p.2.url) →
      ∀ p ∈ addAll m lst, p.1 = norm_url p.2.url := by
  intro lst
  induction lst with
  | nil => intro m hm; exact hm
  | cons o t ih => intro m hm; rw [addAll_cons]; exact ih _ (keyeq_addOffer o m hm)

theorem sound_addAll :
    ∀ (lst : List Offer) (ins : List Offer) (m : List (String × Offer)),
      (∀ k e, lookupStr k m = some e → e ∈ ins ∧ norm_url e.url = k) →
      ∀ k e, lookupStr k (addAll m lst) = some e → e ∈ ins ++ lst ∧ norm_url e.url = k := by
  intro lst
  induction lst with
  | nil => intro ins m hm; simpa using hm
  | cons o t ih =>
    intro ins m hm
    rw [addAll_cons]
    intro k e h
    have := ih (ins ++ [o]) (addOffer m o) (sound_addOffer ins o m hm) k e h
    rwa [List.append_assoc, List.singleton_append] at this

theorem maxi_addAll :
    ∀ (lst : List Offer) (ins : List Offer) (m : List (String × Offer)),
      (∀ x ∈ ins, ∃ e, lookupStr (norm_url x.url) m = some e ∧ x.score ≤ e.score) →
      ∀ x ∈ ins ++ lst, ∃ e, lookupStr (norm_url x.url) (addAll m lst) = some e
        ∧ x.score ≤ e.score := by
  intro lst
  induction lst with
  | nil => intro ins m hm; simpa using hm
  | cons o t ih =>
    intro ins m hm x hx
    rw [addAll_cons]
    refine ih (ins ++ [o]) (addOffer m o) (maxi_addOffer ins o m hm) x ?_
    rwa [List.append_assoc, List.singleton_append]

/-- C9: for any strict-strategy and fuzzy-strategy result lists, the S3
merged offers list has pairwise-distinct normalised URLs (lowercased,
trailing slashes stripped); every kept offer comes from one of the two input
lists and its score is maximal among (hence equal to the maximum of) the
scores carried by its normalised URL across both lists; every input URL is
represented; and the merged list is sorted in descending score order. -/
theorem s3_merge_dedup (strict fuzzy : List Offer) :
    (((merge_offers strict fuzzy).map (fun o => norm_url o.url)).Nodup)
    ∧ (∀ o ∈ merge_offers strict fuzzy, o ∈ strict ++ fuzzy
        ∧ ∀ x ∈ strict ++ fuzzy, norm_url x.url = norm_url o.url → x.score ≤ o.score)
    ∧ (∀ x ∈ strict ++ fuzzy, ∃ o ∈ merge_offers strict fuzzy,
          norm_url o.url = norm_url x.url)
    ∧ (merge_offers strict fuzzy).Sorted scoreDesc := by
  have hbase_sound : ∀ k e, lookupStr k ([] : List (String × Offer)) = some e →
      e ∈ ([] : List Offer) ∧ norm_url e.url = k := by
    intro k e h; simp [lookupStr] at h
  have hbase_maxi : ∀ x ∈ ([] : List Offer), ∃ e,
      lookupStr (norm_url x.url) ([] : List (String × Offer)) = some e ∧ x.score ≤ e.score := by
    intro x hx; simp at hx
  have hsound1 := sound_addAll strict [] [] hbase_sound
  have hmaxi1 := maxi_addAll strict [] [] hbase_maxi
  simp only [List.nil_append] at hsound1 hmaxi1
  have hsound := sound_addAll fuzzy strict (addAll [] strict) hsound1
  have hmaxi := maxi_addAll fuzzy strict (addAll [] strict) hmaxi1
  have hnodup : ((addAll (addAll [] strict) fuzzy).map Prod.fst).Nodup :=
    nodup_keys_addAll fuzzy _ (nodup_keys_addAll strict [] (by simp))
  have hkeyeq : ∀ p ∈ addAll (addAll [] strict) fuzzy, p.1 = norm_url p.2.url :=
    keyeq_addAll fuzzy _ (keyeq_addAll strict [] (by simp))
  set m := addAll (addAll [] strict) fuzzy with hm
  have hperm : List.Perm (merge_offers strict fuzzy) (m.map Prod.snd) := by
    rw [merge_offers]
    exact List.perm_insertionSort scoreDesc _
  have hmemiff : ∀ o, o ∈ merge_offers strict fuzzy ↔ o ∈ m.map Prod.snd :=
    fun o => hperm.mem_iff
  refine ⟨?_, ?_, ?_, ?_⟩
  · -- distinct normalised URLs
    have hmapeq : (m.map Prod.snd).map (fun o => norm_url o.url) = m.map Prod.fst := by
      rw [List.map_map]
      exact List.map_congr_left (fun p hp => (hkeyeq p hp).symm)
    have : ((m.map Prod.snd).map (fun o => norm_url o.url)).Nodup := by
      rw [hmapeq]; exact hnodup
    exact ((hperm.map (fun o => norm_url o.url)).nodup_iff).mpr this
  · -- membership and maximality
    intro o ho
    have hval : o ∈ m.map Prod.snd := (hmemiff o).mp ho
    rcases List.mem_map.mp hval with ⟨p, hpm, hpo⟩
    have hlk : lookupStr p.1 m = some p.2 := lookup_self_of_nodup m hnodup p hpm
    have hso := hsound p.1 p.2 hlk
    refine ⟨hpo ▸ hso.1, ?_⟩
    intro x hx hxo
    rcases hmaxi x hx with ⟨e, he, hle⟩
    have hkx : norm_url x.url = p.1 := by
      rw [hxo, ← hpo]
      exact (hkeyeq p hpm).symm
    rw [hkx, hlk] at he
    simp only [Option.some.injEq] at he
    rw [← hpo, he]
    exact hle
  · -- every input URL is represented
    intro x hx
    rcases hmaxi x hx with ⟨e, he, _⟩
    have hmem : (norm_url x.url, e) ∈ m := mem_of_lookupStr he
    have hval : e ∈ m.map Prod.snd := List.mem_map_of_mem Prod.snd hmem
    refine ⟨e, (hmemiff e).mpr hval, ?_⟩
    exact (hsound _ _ he).2
  · rw [merge_offers]
    exact List.sorted_insertionSort scoreDesc _


/-! ## Claim C8 — budget fallback correctness -/

theorem offerOfItem_price (base : String) (i : CatalogItem) (s : ℚ) :
    (offerOfItem base i s).price_usd = i.price_usd := rfl

theorem offerOfItem_score (base : String) (i : CatalogItem) (s : ℚ) :
    (offerOfItem base i s).score = s := rfl

/-- C8: whenever a sourcing strategy's top-k shortlist is empty and the
intent has a (truthy) budget, `_score_candidates` returns the budget
fallback: up to `top_k` cheapest catalog items with `price_usd ≤ budget`,
each with fixed score `0.5`, sorted by ascending price — in particular every
offer returned by the fallback is within budget, and no skipped within-budget
item is cheaper than a returned one. -/
theorem budget_fallback_correct (base : String) (pi : IntentS3)
    (candidates catalog : List CatalogItem) (k : ℕ)
    (hempty : shortlist base pi candidates k = [])
    (hb : truthyQ pi.budget_usd = true) :
    score_candidates base pi candidates catalog k = best_budget_fallback base pi catalog k
    ∧ (∀ o ∈ score_candidates base pi candidates catalog k,
        o.score = 1/2 ∧ o.price_usd ≤ pi.budget_usd.getD 0)
    ∧ (score_candidates base pi candidates catalog k).length ≤ k
    ∧ (score_candidates base pi candidates catalog k).Sorted
        (fun a b => a.price_usd ≤ b.price_usd)
    ∧ (∀ o ∈ score_candidates base pi candidates catalog k,
        ∀ c ∈ (List.insertionSort priceAscItem (budgetItems pi catalog)).drop k,
          o.price_usd ≤ c.price_usd) := by
  have heq : score_candidates base pi candidates catalog k =
      best_budget_fallback base pi catalog k := by
    simp [score_candidates, hempty, hb]
  have hsortedItems : (List.insertionSort priceAscItem (budgetItems pi catalog)).Sorted
      priceAscItem := List.sorted_insertionSort priceAscItem _
  have hsplit := List.take_append_drop k (List.insertionSort priceAscItem (budgetItems pi catalog))
  refine ⟨heq, ?_, ?_, ?_, ?_⟩
  · intro o ho
    rw [heq, best_budget_fallback] at ho
    rcases List.mem_map.mp ho with ⟨i, hi, hio⟩
    have himem : i ∈ budgetItems pi catalog := by
      have h1 : i ∈ List.insertionSort priceAscItem (budgetItems pi catalog) :=
        List.mem_of_mem_take hi
      exact (List.perm_insertionSort priceAscItem _).mem_iff.mp h1
    have hprice : decide (i.price_usd ≤ pi.budget_usd.getD 0) = true := by
      have := (List.mem_filter.mp himem).2
      exact (Bool.and_eq_true _ _ |>.mp this).2
    refine ⟨by rw [← hio, offerOfItem_score], ?_⟩
    rw [← hio, offerOfItem_price]
    exact of_decide_eq_true hprice
  · rw [heq, best_budget_fallback, List.length_map, List.length_take]
    omega
  · rw [heq, best_budget_fallback]
    exact (hsortedItems.sublist (List.take_sublist k _)).map
      (fun item => offerOfItem base item (1/2))
      (fun a b hab => by simpa [offerOfItem_price] using hab)
  · intro o ho c hc
    rw [heq, best_budget_fallback] at ho
    rcases List.mem_map.mp ho with ⟨i, hi, hio⟩
    have hrel : priceAscItem i c := by
      have hpw : (List.take k (List.insertionSort priceAscItem (budgetItems pi catalog))
          ++ List.drop k (List.insertionSort priceAscItem (budgetItems pi catalog))).Pairwise
          priceAscItem := by
        rw [hsplit]; exact hsortedItems
      exact (List.pairwise_append.mp hpw).2.2 i hi c hc
    rw [← hio, offerOfItem_price]
    exact hrel

/-- Witness for C8 on scenario 8.E: an empty candidate set with a 200 USD
budget over a three-item catalog returns the two within-budget laptops. -/
theorem budget_fallback_correct_witness :
    shortlist "http://mock" laptopIntent [] 2 = []
    ∧ truthyQ laptopIntent.budget_usd = true
    ∧ (score_candidates "http://mock" laptopIntent [] [itemCheap, itemMid, itemPro] 2 =
        best_budget_fallback "http://mock" laptopIntent [itemCheap, itemMid, itemPro] 2
      ∧ (∀ o ∈ score_candidates "http://mock" laptopIntent [] [itemCheap, itemMid, itemPro] 2,
          o.score = 1/2 ∧ o.price_usd ≤ laptopIntent.budget_usd.getD 0)
      ∧ (score_candidates "http://mock" laptopIntent [] [itemCheap, itemMid, itemPro] 2).length ≤ 2
      ∧ (score_candidates "http://mock" laptopIntent [] [itemCheap, itemMid, itemPro] 2).Sorted
          (fun a b => a.price_usd ≤ b.price_usd)
      ∧ (∀ o ∈ score_candidates "http://mock" laptopIntent [] [itemCheap, itemMid, itemPro] 2,
          ∀ c ∈ (List.insertionSort priceAscItem
              (budgetItems laptopIntent [itemCheap, itemMid, itemPro])).drop 2,
            o.price_usd ≤ c.price_usd)) :=
  ⟨rfl, by decide,
    budget_fallback_correct "http://mock" laptopIntent [] [itemCheap, itemMid, itemPro] 2
      rfl (by decide)⟩


/-! ## Claims C10, C7, C3 — checkout admission, velocity and idempotency -/

theorem lookup_map_replace {β : Type} (k : String) (v : β) :
    ∀ l : List (String × β), (lookupStr k l).isSome →
      lookupStr k (l.map (fun p => if p.1 = k then (k, v) else p)) = some v := by
  intro l
  induction l with
  | nil => intro h; simp [lookupStr] at h
  | cons p rest ih =>
    intro h
    rcases p with ⟨a, w⟩
    by_cases ha : a = k
    · subst ha
      simp [lookupStr_cons]
    · rw [lookupStr_cons, if_neg ha] at h
      simp only [List.map_cons, if_neg ha]
      rw [lookupStr_cons, if_neg ha]
      exact ih h

theorem lookup_append_right {β : Type} (k : String) (v : β) :
    ∀ l : List (String × β), lookupStr k l = none →
      lookupStr k (l ++ [(k, v)]) = some v := by
  intro l
  induction l with
  | nil => intro _; simp [lookupStr]
  | cons p rest ih =>
    intro h
    rcases p with ⟨a, w⟩
    rw [lookupStr_cons] at h
    by_cases ha : a = k
    · rw [if_pos ha] at h; simp at h
    · rw [if_neg ha] at h
      rw [List.cons_append, lookupStr_cons, if_neg ha]
      exact ih h

theorem lookup_setAssoc_self {β : Type} (l : List (String × β)) (k : String) (v : β) :
    lookupStr k (setAssoc l k v) = some v := by
  rw [setAssoc]
  rcases h : lookupStr k l with _ | w
  · rw [if_neg (by simp [h])]
    exact lookup_append_right k v l h
  · rw [if_pos (by simp [h])]
    exact lookup_map_replace k v l (by simp [h])

theorem getActivity_bump (st : PayState) (d : String) :
    getActivity (bumpActivity st d) d = getActivity st d + 1 := by
  simp [getActivity, bumpActivity, lookup_setAssoc_self]

/-- C10: `pay` mutates its `PaymentInput` in place: it never touches
`expiry_mm_yy`, `cvv` or `amount_usd`, and once the offer is admitted and the
card number passes the minimum-length check, the caller's `card_number` is
overwritten with its digits-only form — whether or not `pay` subsequently
raises. -/
theorem pay_frame_card_number (hash : String → String) (now : Today) (offer : Offer)
    (payment : PaymentInput) (key : String) (st : PayState) :
    ((pay hash now offer payment key st).payment.expiry_mm_yy = payment.expiry_mm_yy
      ∧ (pay hash now offer payment key st).payment.cvv = payment.cvv
      ∧ (pay hash now offer payment key st).payment.amount_usd = payment.amount_usd)
    ∧ (validate_offer offer = none →
        13 ≤ (pyDigits payment.card_number).length →
        (pay hash now offer payment key st).payment.card_number
          = pyDigits payment.card_number) := by
  constructor
  · rcases hvo : validate_offer offer with _ | e
    · simp only [pay, hvo]
      split_ifs <;> (try split) <;> simp
    · simp [pay, hvo]
  · intro hvo hlen
    simp only [pay, hvo]
    have h13 : ¬ (pyDigits payment.card_number).length < 13 := by omega
    split_ifs <;> (try split) <;> simp

theorem validate_offer_some {offer : Offer} {e : PayError}
    (h : validate_offer offer = some e) :
    e = .invalidAmount ∨ e = .amountExceedsLimit ∨ e = .vendorBlocked := by
  rw [validate_offer] at h
  split_ifs at h <;> simp_all

theorem bumpActivity_store (st : PayState) (d : String) :
    (bumpActivity st d).store = st.store := rfl

set_option maxHeartbeats 1000000 in
/-- C7: `pay` aborts with the velocity error iff the admission prefix in
front of the gate passes and the card's failed-attempt counter exceeds 5;
each failure of the expiry-format, expiry-in-future, Luhn or CVV check
increments that card's counter by exactly one and leaves the receipt store
unchanged; a payment passing all checks resets the counter to 0. -/
theorem pay_velocity_and_counter (hash : String → String) (now : Today) (offer : Offer)
    (payment : PaymentInput) (key : String) (st : PayState) :
    (((pay hash now offer payment key st).result = .error .velocity) ↔
      (reachesVelocityGate offer payment = true
        ∧ getActivity st (pyDigits payment.card_number) > 5))
    ∧ (∀ e, e = PayError.invalidExpiry ∨ e = .cardExpired ∨ e = .luhnFailed ∨ e = .invalidCvv →
        (pay hash now offer payment key st).result = .error e →
          getActivity (pay hash now offer payment key st).state (pyDigits payment.card_number)
              = getActivity st (pyDigits payment.card_number) + 1
          ∧ (pay hash now offer payment key st).state.store = st.store)
    ∧ (∀ r : Receipt, (pay hash now offer payment key st).result = .ok r →
        getActivity (pay hash now offer payment key st).state (pyDigits payment.card_number)
          = 0) := by
  refine ⟨?_, ?_, ?_⟩
  · rcases hvo : validate_offer offer with _ | e
    · simp only [pay, hvo, reachesVelocityGate]
      split_ifs with h1 h2 h3 <;> (try split) <;>
        simp_all [Option.isNone_iff_eq_none] <;> omega
    · have hne : ¬ e = PayError.velocity := by
        rcases validate_offer_some hvo with h | h | h <;> simp [h]
      simp [pay, hvo, reachesVelocityGate, Option.isNone_iff_eq_none, hne]
  · intro e he hres
    rcases hvo : validate_offer offer with _ | e2
    · simp only [pay, hvo] at hres ⊢
      split_ifs at hres ⊢ <;> (try split at hres) <;>
        first
          | exact ⟨getActivity_bump st _, rfl⟩
          | (rcases he with rfl | rfl | rfl | rfl <;> simp_all)
    · simp only [pay, hvo] at hres
      rcases validate_offer_some hvo with h | h | h <;>
        rcases he with rfl | rfl | rfl | rfl <;> simp_all
  · intro r hres
    rcases hvo : validate_offer offer with _ | e2
    · simp only [pay, hvo] at hres ⊢
      split_ifs at hres ⊢ <;> (try split at hres) <;> (try split) <;>
        first
          | simp [getActivity, lookup_setAssoc_self]
          | simp_all
    · simp only [pay, hvo] at hres
      simp at hres


theorem countP_lookup_none {β : Type} (k : String) :
    ∀ l : List (String × β), lookupStr k l = none →
      l.countP (fun p => decide (p.1 = k)) = 0 := by
  intro l
  induction l with
  | nil => intro _; simp
  | cons p rest ih =>
    intro h
    rcases p with ⟨a, w⟩
    rw [lookupStr_cons] at h
    by_cases ha : a = k
    · rw [if_pos ha] at h; simp at h
    · rw [if_neg ha] at h
      rw [List.countP_cons]
      simp [ha, ih h]

theorem countP_nodup_lookup_some {β : Type} (k : String) :
    ∀ l : List (String × β), (l.map Prod.fst).Nodup → (lookupStr k l).isSome →
      l.countP (fun p => decide (p.1 = k)) = 1 := by
  intro l
  induction l with
  | nil => intro _ h; simp [lookupStr] at h
  | cons p rest ih =>
    intro hnd h
    rcases p with ⟨a, w⟩
    simp only [List.map_cons, List.nodup_cons] at hnd
    by_cases ha : a = k
    · subst ha
      have hnone : lookupStr a rest = none := by
        rcases hl : lookupStr a rest with _ | v
        · rfl
        · exact absurd (List.mem_map_of_mem Prod.fst (mem_of_lookupStr hl)) hnd.1
      rw [List.countP_cons]
      simp [countP_lookup_none a rest hnone]
    · rw [lookupStr_cons, if_neg ha] at h
      rw [List.countP_cons]
      simp [ha, ih hnd.2 h]

theorem setAssoc_of_lookup_none {β : Type} {l : List (String × β)} {k : String} (v : β)
    (h : lookupStr k l = none) : setAssoc l k v = l ++ [(k, v)] := by
  rw [setAssoc, if_neg (by simp [h])]


theorem pay_ok_conditions (hash : String → String) (now : Today) (offer : Offer)
    (payment : PaymentInput) (key : String) (st : PayState) (r : Receipt)
    (h : (pay hash now offer payment key st).result = .ok r) :
    validate_offer offer = none
    ∧ ¬ (pyDigits payment.card_number).length < 13
    ∧ validate_card_length (pyDigits payment.card_number)
        (detect_card_type (pyDigits payment.card_number)) = true
    ∧ ¬ getActivity st (pyDigits payment.card_number) > 5
    ∧ validate_expiry payment.expiry_mm_yy = true
    ∧ expiry_is_future now payment.expiry_mm_yy = true
    ∧ luhn_check (pyDigits payment.card_number) = true
    ∧ validate_cvv payment.cvv = true := by
  rcases hvo : validate_offer offer with _ | e
  · simp only [pay, hvo] at h
    split_ifs at h with h1 h2 h3 h4 h5 h6 h7 h8 <;>
      first
        | exact ⟨rfl, h1, h2, h3, h4, h5, h6, h7⟩
        | simp at h
  · simp [pay, hvo] at h

theorem pay_pass (hash : String → String) (now : Today) (offer : Offer)
    (payment : PaymentInput) (key : String) (st : PayState)
    (hvo : validate_offer offer = none)
    (h1 : ¬ (pyDigits payment.card_number).length < 13)
    (h2 : validate_card_length (pyDigits payment.card_number)
        (detect_card_type (pyDigits payment.card_number)) = true)
    (h3 : ¬ getActivity st (pyDigits payment.card_number) > 5)
    (h4 : validate_expiry payment.expiry_mm_yy = true)
    (h5 : expiry_is_future now payment.expiry_mm_yy = true)
    (h6 : luhn_check (pyDigits payment.card_number) = true)
    (h7 : validate_cvv payment.cvv = true) :
    pay hash now offer payment key st =
      match lookupStr (payEffectiveKey hash offer payment key) st.store with
      | some r =>
        ⟨.ok r, ⟨st.store, setAssoc st.activity (pyDigits payment.card_number) 0⟩,
          { payment with card_number := pyDigits payment.card_number }⟩
      | none =>
        ⟨.ok (mkReceipt hash offer payment key),
          ⟨setAssoc st.store (payEffectiveKey hash offer payment key)
              (mkReceipt hash offer payment key),
            setAssoc st.activity (pyDigits payment.card_number) 0⟩,
          { payment with card_number := pyDigits payment.card_number }⟩ := by
  simp only [pay, hvo, payEffectiveKey, mkReceipt]
  rw [if_neg h1, if_neg (by simp [h2]), if_neg h3, if_neg (by simp [h4]),
    if_neg (by simp [h5]), if_neg (by simp [h6]), if_neg (by simp [h7])]


set_option maxHeartbeats 1000000 in
/-- C3: two `pay` calls with identical offer, payment and idempotency key,
the first of which succeeds, return the identical receipt, and the receipt
store afterwards holds exactly one entry for the effective key: a present
key returns the stored receipt with the store unchanged, an absent key
appends exactly one new entry which the repeat call then returns. -/
theorem pay_idempotent (hash : String → String) (now : Today) (offer : Offer)
    (payment : PaymentInput) (key : String) (st : PayState)
    (hnd : (st.store.map Prod.fst).Nodup) (r₁ : Receipt)
    (h₁ : (pay hash now offer payment key st).result = .ok r₁) :
    (pay hash now offer payment key ((pay hash now offer payment key st).state)).result
        = .ok r₁
    ∧ (pay hash now offer payment key ((pay hash now offer payment key st).state)).state.store
        = (pay hash now offer payment key st).state.store
    ∧ ((pay hash now offer payment key st).state.store.countP
        (fun p => decide (p.1 = payEffectiveKey hash offer payment key))) = 1
    ∧ (lookupStr (payEffectiveKey hash offer payment key) st.store = none →
        (pay hash now offer payment key st).state.store
          = st.store ++ [(payEffectiveKey hash offer payment key, r₁)])
    ∧ (∀ r₀ : Receipt, lookupStr (payEffectiveKey hash offer payment key) st.store = some r₀ →
        r₁ = r₀ ∧ (pay hash now offer payment key st).state.store = st.store) := by
  obtain ⟨hvo, h1, h2, h3, h4, h5, h6, h7⟩ :=
    pay_ok_conditions hash now offer payment key st r₁ h₁
  have hfst := pay_pass hash now offer payment key st hvo h1 h2 h3 h4 h5 h6 h7
  rcases heq : lookupStr (payEffectiveKey hash offer payment key) st.store with _ | r
  · -- the key was absent: store and return a fresh receipt
    have houtcome : pay hash now offer payment key st =
        ⟨.ok (mkReceipt hash offer payment key),
          ⟨setAssoc st.store (payEffectiveKey hash offer payment key)
              (mkReceipt hash offer payment key),
            setAssoc st.activity (pyDigits payment.card_number) 0⟩,
          { payment with card_number := pyDigits payment.card_number }⟩ := by
      rw [hfst]; simp only [heq]
    rw [houtcome] at h₁
    simp only [Except.ok.injEq] at h₁
    rw [h₁, setAssoc_of_lookup_none r₁ heq] at houtcome
    have h3' : ¬ getActivity ⟨st.store ++ [(payEffectiveKey hash offer payment key, r₁)],
        setAssoc st.activity (pyDigits payment.card_number) 0⟩
        (pyDigits payment.card_number) > 5 := by
      simp [getActivity, lookup_setAssoc_self]
    have hsnd := pay_pass hash now offer payment key
      ⟨st.store ++ [(payEffectiveKey hash offer payment key, r₁)],
        setAssoc st.activity (pyDigits payment.card_number) 0⟩ hvo h1 h2 h3' h4 h5 h6 h7
    have hlk2 : lookupStr (payEffectiveKey hash offer payment key)
        (PayState.mk (st.store ++ [(payEffectiveKey hash offer payment key, r₁)])
          (setAssoc st.activity (pyDigits payment.card_number) 0)).store = some r₁ :=
      lookup_append_right _ r₁ st.store heq
    have houtcome2 : pay hash now offer payment key
        ⟨st.store ++ [(payEffectiveKey hash offer payment key, r₁)],
          setAssoc st.activity (pyDigits payment.card_number) 0⟩ =
        ⟨.ok r₁,
          ⟨st.store ++ [(payEffectiveKey hash offer payment key, r₁)],
            setAssoc (setAssoc st.activity (pyDigits payment.card_number) 0)
              (pyDigits payment.card_number) 0⟩,
          { payment with card_number := pyDigits payment.card_number }⟩ := by
      rw [hsnd]; simp only [hlk2]
    rw [houtcome]
    refine ⟨?_, ?_, ?_, fun _ => rfl, ?_⟩
    · rw [houtcome2]
    · rw [houtcome2]
    · rw [List.countP_append, countP_lookup_none _ st.store heq]
      simp
    · intro r₀ hr₀
      exact absurd hr₀ (by simp)
  · -- the key was present: the stored receipt is returned unchanged
    have houtcome : pay hash now offer payment key st =
        ⟨.ok r, ⟨st.store, setAssoc st.activity (pyDigits payment.card_number) 0⟩,
          { payment with card_number := pyDigits payment.card_number }⟩ := by
      rw [hfst]; simp only [heq]
    rw [houtcome] at h₁
    simp only [Except.ok.injEq] at h₁
    subst h₁
    have h3' : ¬ getActivity ⟨st.store,
        setAssoc st.activity (pyDigits payment.card_number) 0⟩
        (pyDigits payment.card_number) > 5 := by
      simp [getActivity, lookup_setAssoc_self]
    have hsnd := pay_pass hash now offer payment key
      ⟨st.store, setAssoc st.activity (pyDigits payment.card_number) 0⟩
      hvo h1 h2 h3' h4 h5 h6 h7
    have houtcome2 : pay hash now offer payment key
        ⟨st.store, setAssoc st.activity (pyDigits payment.card_number) 0⟩ =
        ⟨.ok r,
          ⟨st.store, setAssoc (setAssoc st.activity (pyDigits payment.card_number) 0)
              (pyDigits payment.card_number) 0⟩,
          { payment with card_number := pyDigits payment.card_number }⟩ := by
      rw [hsnd]; simp only [heq]
    rw [houtcome]
    refine ⟨?_, ?_, ?_, ?_, ?_⟩
    · rw [houtcome2]
    · rw [houtcome2]
    · exact countP_nodup_lookup_some _ st.store hnd (by simp [heq])
    · intro hnone
      exact absurd hnone (by simp)
    · intro r₀ hr₀
      simp only [Option.some.injEq] at hr₀
      exact ⟨hr₀, rfl⟩


/-- Witness for C10: the scenario 8.A payment with spaces in the card number
is normalised in place while the other fields stay untouched. -/
theorem pay_frame_card_number_witness :
    validate_offer okOffer = none
    ∧ 13 ≤ (pyDigits goodPay.card_number).length
    ∧ (pay idHash today okOffer goodPay "k-3" {}).payment.card_number
        = pyDigits goodPay.card_number
    ∧ (pay idHash today okOffer goodPay "k-3" {}).payment.expiry_mm_yy
        = goodPay.expiry_mm_yy :=
  ⟨by decide, by decide,
    (pay_frame_card_number idHash today okOffer goodPay "k-3" {}).2 (by decide) (by decide),
    ((pay_frame_card_number idHash today okOffer goodPay "k-3" {}).1).1⟩

/-- Witness for C7: a Luhn-failing card increments its velocity counter by
one and leaves the receipt store unchanged. -/
theorem pay_velocity_and_counter_witness :
    (pay idHash today okOffer luhnBadPay "k-4" {}).result = .error .luhnFailed
    ∧ (getActivity (pay idHash today okOffer luhnBadPay "k-4" {}).state
          (pyDigits luhnBadPay.card_number)
        = getActivity ({} : PayState) (pyDigits luhnBadPay.card_number) + 1
      ∧ (pay idHash today okOffer luhnBadPay "k-4" {}).state.store
          = ({} : PayState).store) :=
  ⟨by decide,
    (pay_velocity_and_counter idHash today okOffer luhnBadPay "k-4" {}).2.1 .luhnFailed
      (Or.inr (Or.inr (Or.inl rfl))) (by decide)⟩

/-- Witness for C3 on scenario 8.D: repeating the successful checkout with
the same key returns the identical receipt and the store has one entry. -/
theorem pay_idempotent_witness :
    (((({} : PayState).store.map Prod.fst).Nodup)
      ∧ (pay idHash today okOffer goodPay "k-1" ({} : PayState)).result = .ok witReceipt)
    ∧ ((pay idHash today okOffer goodPay "k-1"
          ((pay idHash today okOffer goodPay "k-1" ({} : PayState)).state)).result
        = .ok witReceipt
      ∧ ((pay idHash today okOffer goodPay "k-1" ({} : PayState)).state.store.countP
          (fun p => decide (p.1 = payEffectiveKey idHash okOffer goodPay "k-1"))) = 1) :=
  ⟨⟨by decide, by decide⟩,
    (pay_idempotent idHash today okOffer goodPay "k-1" {} (by decide) witReceipt
      (by decide)).1,
    (pay_idempotent idHash today okOffer goodPay "k-1" {} (by decide) witReceipt
      (by decide)).2.2.1⟩

end AgenticPurchase
